import Mathlib

/-
  Shallow embedding of the rust-elf decoder (src/file.rs, src/section.rs,
  src/symbols.rs, src/dynamic.rs, src/relocs.rs, src/notes.rs, and the
  historical single-file decoder src/main.rs).

  Byte buffers are lists of naturals (each entry a u8 value); the shared
  cursor of the Rust Reader is modelled by passing an explicit position.
  Fixed-width little-endian reads fail (return none) when fewer bytes
  remain, which models the io error that every decoder unwraps or
  propagates. Rust panics (unwrap on a read, slice indexing out of
  bounds, arithmetic underflow in debug builds) are modelled as explicit
  error values of the corresponding Except type.
-/

namespace Elf

deriving instance DecidableEq for Except

abbrev Bytes := List Nat

/-- Little-endian value of a byte list (byteorder::LittleEndian). -/
def leVal : Bytes → Nat
  | [] => 0
  | b :: bs => b % 256 + 256 * leVal bs

/-- Read exactly n bytes at pos (io::Read::read_exact over a Cursor);
fails when fewer than n bytes remain. -/
def readBytes (buf : Bytes) (pos n : Nat) : Option (Bytes × Nat) :=
  if pos + n ≤ buf.length then some ((buf.drop pos).take n, pos + n) else none

/-- Fixed-width little-endian unsigned read (ReadBytesExt). -/
def readUInt (n : Nat) (buf : Bytes) (pos : Nat) : Option (Nat × Nat) :=
  (readBytes buf pos n).map (fun p => (leVal p.1, p.2))

def readU8 : Bytes → Nat → Option (Nat × Nat) := readUInt 1
def readU16 : Bytes → Nat → Option (Nat × Nat) := readUInt 2
def readU32 : Bytes → Nat → Option (Nat × Nat) := readUInt 4
def readU64 : Bytes → Nat → Option (Nat × Nat) := readUInt 8

/-- Two's-complement reinterpretation of a u64 as an i64. -/
def toI64 (v : Nat) : Int := if v < 2 ^ 63 then (v : Int) else (v : Int) - 2 ^ 64

/-- Fixed-width little-endian signed 64-bit read (read_i64). -/
def readI64 (buf : Bytes) (pos : Nat) : Option (Int × Nat) :=
  (readU64 buf pos).map (fun p => (toI64 p.1, p.2))

/- ===== src/file.rs ===== -/

def ELF_MAGIC : Bytes := [0x7f, 0x45, 0x4c, 0x46]

inductive FileClass
  | None | ElfClass32 | ElfClass64 | Invalid (v : Nat)
  deriving DecidableEq

def FileClass.new (value : Nat) : FileClass :=
  match value with
  | 0 => FileClass.None
  | 1 => FileClass.ElfClass32
  | 2 => FileClass.ElfClass64
  | v => FileClass.Invalid v

inductive Encoding
  | None | LittleEndian | BigEndian | Invalid (v : Nat)
  deriving DecidableEq

def Encoding.new (value : Nat) : Encoding :=
  match value with
  | 0 => Encoding.None
  | 1 => Encoding.LittleEndian
  | 2 => Encoding.BigEndian
  | v => Encoding.Invalid v

inductive OsAbi
  | UnixVSystem | HpUx | NetBsd | GnuElfExtensions | SunSolaris | IbmAix
  | SgiIrix | FreeBsd | CompaqTru64Unix | NovellModesto | OpenBsd
  | ArmEabi | Arm | Standalone | Invalid (v : Nat)
  deriving DecidableEq

def OsAbi.new (value : Nat) : OsAbi :=
  match value with
  | 0 => OsAbi.UnixVSystem
  | 1 => OsAbi.HpUx
  | 2 => OsAbi.NetBsd
  | 3 => OsAbi.GnuElfExtensions
  | 6 => OsAbi.SunSolaris
  | 7 => OsAbi.IbmAix
  | 8 => OsAbi.SgiIrix
  | 9 => OsAbi.FreeBsd
  | 10 => OsAbi.CompaqTru64Unix
  | 11 => OsAbi.NovellModesto
  | 12 => OsAbi.OpenBsd
  | 64 => OsAbi.ArmEabi
  | 97 => OsAbi.Arm
  | 255 => OsAbi.Standalone
  | v => OsAbi.Invalid v

inductive ObjectType
  | NoFileType | RelocatableFile | ExecutableFile | SharedObjectFile
  | CoreFile | Invalid (v : Nat)
  deriving DecidableEq

def ObjectType.new (value : Nat) : ObjectType :=
  match value with
  | 0 => ObjectType.NoFileType
  | 1 => ObjectType.RelocatableFile
  | 2 => ObjectType.ExecutableFile
  | 3 => ObjectType.SharedObjectFile
  | 4 => ObjectType.CoreFile
  | v => ObjectType.Invalid v

inductive Version
  | Unspecified | Current | Invalid (v : Nat)
  deriving DecidableEq

def Version.new (value : Nat) : Version :=
  match value with
  | 0 => Version.Unspecified
  | 1 => Version.Current
  | v => Version.Invalid v

structure ElfFileHeader where
  e_magic : Bytes
  e_class : FileClass
  e_encoding : Encoding
  e_version_ : Nat
  e_os_abi : OsAbi
  e_os_abi_version : Nat
  e_padding_ : Bytes
  e_type : ObjectType
  e_machine : Nat
  e_version : Version
  e_entry : Nat
  e_phoff : Nat
  e_shoff : Nat
  e_flags : Nat
  e_ehsize : Nat
  e_phentsize : Nat
  e_phnum : Nat
  e_shentsize : Nat
  e_shnum : Nat
  e_shstrndx : Nat
  deriving DecidableEq

inductive FileError
  | ElfMagicMismatchError (magic : Bytes)
  | IOFail
  deriving DecidableEq

/-- The 12 reads of ElfFileHeader::new that follow the five identification
bytes and the padding: object type, machine, version, entry point, the two
table offsets, flags, and the sizes, counts and string-table index. Each
read advances the cursor; any failure is the propagated io error. -/
def readHeaderTail (buf : Bytes) (pos : Nat) :
    Option (ObjectType × Nat × Version × Nat × Nat × Nat × Nat × Nat × Nat ×
            Nat × Nat × Nat × Nat) :=
  match readU16 buf pos with
  | none => none
  | some (ty, pos) =>
  match readU16 buf pos with
  | none => none
  | some (e_machine, pos) =>
  match readU32 buf pos with
  | none => none
  | some (ver, pos) =>
  match readU64 buf pos with
  | none => none
  | some (e_entry, pos) =>
  match readU64 buf pos with
  | none => none
  | some (e_phoff, pos) =>
  match readU64 buf pos with
  | none => none
  | some (e_shoff, pos) =>
  match readU32 buf pos with
  | none => none
  | some (e_flags, pos) =>
  match readU16 buf pos with
  | none => none
  | some (e_ehsize, pos) =>
  match readU16 buf pos with
  | none => none
  | some (e_phentsize, pos) =>
  match readU16 buf pos with
  | none => none
  | some (e_phnum, pos) =>
  match readU16 buf pos with
  | none => none
  | some (e_shentsize, pos) =>
  match readU16 buf pos with
  | none => none
  | some (e_shnum, pos) =>
  match readU16 buf pos with
  | none => none
  | some (e_shstrndx, _) =>
    some (ObjectType.new ty, e_machine, Version.new ver, e_entry, e_phoff,
          e_shoff, e_flags, e_ehsize, e_phentsize, e_phnum, e_shentsize,
          e_shnum, e_shstrndx)

/-- ElfFileHeader::new. The four-byte element-wise magic comparison of the
source is equivalent to equality of the two four-byte lists. -/
def ElfFileHeader.new (buf : Bytes) : Except FileError ElfFileHeader :=
  match readBytes buf 0 4 with
  | none => .error .IOFail
  | some (e_magic, pos) =>
    if e_magic = ELF_MAGIC then
      match readU8 buf pos with
      | none => .error .IOFail
      | some (cls, pos) =>
      match readU8 buf pos with
      | none => .error .IOFail
      | some (enc, pos) =>
      match readU8 buf pos with
      | none => .error .IOFail
      | some (e_version_, pos) =>
      match readU8 buf pos with
      | none => .error .IOFail
      | some (abi, pos) =>
      match readU8 buf pos with
      | none => .error .IOFail
      | some (e_os_abi_version, pos) =>
      match readBytes buf pos 7 with
      | none => .error .IOFail
      | some (e_padding_, pos) =>
      match readHeaderTail buf pos with
      | none => .error .IOFail
      | some (e_type, e_machine, e_version, e_entry, e_phoff, e_shoff,
              e_flags, e_ehsize, e_phentsize, e_phnum, e_shentsize,
              e_shnum, e_shstrndx) =>
        .ok { e_magic := e_magic, e_class := FileClass.new cls,
              e_encoding := Encoding.new enc, e_version_ := e_version_,
              e_os_abi := OsAbi.new abi, e_os_abi_version := e_os_abi_version,
              e_padding_ := e_padding_, e_type := e_type,
              e_machine := e_machine, e_version := e_version,
              e_entry := e_entry, e_phoff := e_phoff, e_shoff := e_shoff,
              e_flags := e_flags, e_ehsize := e_ehsize,
              e_phentsize := e_phentsize, e_phnum := e_phnum,
              e_shentsize := e_shentsize, e_shnum := e_shnum,
              e_shstrndx := e_shstrndx }
    else .error (.ElfMagicMismatchError e_magic)

/- ===== src/section.rs ===== -/

inductive SectionHeaderType
  | Null | Data | Symtab | Strtab | Rela | Hash | Dynamic | Note | Bss
  | Rel | DynSym | InitArray | FiniArray | PreInitArray | Group
  | SymtabShndx | GnuAttributes | GnuHash | GnuLibList | Checksum
  | GnuVerDef | GnuVerNeed | GnuVerSym | Unknown (v : Nat)
  deriving DecidableEq

def SectionHeaderType.new (value : Nat) : SectionHeaderType :=
  match value with
  | 0 => SectionHeaderType.Null
  | 1 => SectionHeaderType.Data
  | 2 => SectionHeaderType.Symtab
  | 3 => SectionHeaderType.Strtab
  | 4 => SectionHeaderType.Rela
  | 5 => SectionHeaderType.Hash
  | 6 => SectionHeaderType.Dynamic
  | 7 => SectionHeaderType.Note
  | 8 => SectionHeaderType.Bss
  | 9 => SectionHeaderType.Rel
  | 11 => SectionHeaderType.DynSym
  | 14 => SectionHeaderType.InitArray
  | 15 => SectionHeaderType.FiniArray
  | 16 => SectionHeaderType.PreInitArray
  | 17 => SectionHeaderType.Group
  | 18 => SectionHeaderType.SymtabShndx
  | 0x6ffffff5 => SectionHeaderType.GnuAttributes
  | 0x6ffffff6 => SectionHeaderType.GnuHash
  | 0x6ffffff7 => SectionHeaderType.GnuLibList
  | 0x6ffffff8 => SectionHeaderType.Checksum
  | 0x6ffffffd => SectionHeaderType.GnuVerDef
  | 0x6ffffffe => SectionHeaderType.GnuVerNeed
  | 0x6fffffff => SectionHeaderType.GnuVerSym
  | v => SectionHeaderType.Unknown v

structure SectionHeader where
  sh_name : Nat
  sh_type : SectionHeaderType
  sh_flags : Nat
  sh_addr : Nat
  sh_offset : Nat
  sh_size : Nat
  sh_link : Nat
  sh_info : Nat
  sh_addralign : Nat
  sh_entsize : Nat
  deriving DecidableEq

/-- SectionHeader::new: ten sequential little-endian reads (64 bytes). -/
def SectionHeader.new (buf : Bytes) (pos : Nat) : Option (SectionHeader × Nat) :=
  match readU32 buf pos with
  | none => none
  | some (sh_name, pos) =>
  match readU32 buf pos with
  | none => none
  | some (ty, pos) =>
  match readU64 buf pos with
  | none => none
  | some (sh_flags, pos) =>
  match readU64 buf pos with
  | none => none
  | some (sh_addr, pos) =>
  match readU64 buf pos with
  | none => none
  | some (sh_offset, pos) =>
  match readU64 buf pos with
  | none => none
  | some (sh_size, pos) =>
  match readU32 buf pos with
  | none => none
  | some (sh_link, pos) =>
  match readU32 buf pos with
  | none => none
  | some (sh_info, pos) =>
  match readU64 buf pos with
  | none => none
  | some (sh_addralign, pos) =>
  match readU64 buf pos with
  | none => none
  | some (sh_entsize, pos) =>
    some ({ sh_name := sh_name, sh_type := SectionHeaderType.new ty,
            sh_flags := sh_flags, sh_addr := sh_addr, sh_offset := sh_offset,
            sh_size := sh_size, sh_link := sh_link, sh_info := sh_info,
            sh_addralign := sh_addralign, sh_entsize := sh_entsize }, pos)

/- ===== src/symbols.rs: StringTable ===== -/

structure StringTable where
  buffer : Bytes
  deriving DecidableEq

/-- StringTable::get: the source slices the buffer at the offset, which
panics when the offset exceeds the buffer length (none here); otherwise
it scans forward until a NUL byte or the end of the buffer. -/
def StringTable.get (st : StringTable) (offset : Nat) : Option Bytes :=
  if offset ≤ st.buffer.length then
    some ((st.buffer.drop offset).takeWhile (fun ch => ch ≠ 0))
  else none

def StringTable.empty : StringTable := ⟨[]⟩

/-- StringTable::new: seek to sh_offset and read at most sh_size bytes
(io::Take reads fewer when the buffer ends early, without failing). -/
def StringTable.new (hdr : SectionHeader) (buf : Bytes) : StringTable :=
  ⟨(buf.drop hdr.sh_offset).take hdr.sh_size⟩

/- ===== src/section.rs: SectionHeaders ===== -/

structure SectionHeaders where
  headers : List SectionHeader
  strtab : StringTable
  deriving DecidableEq

/-- The while loop of SectionHeaders::new: read count sequential
section-header records starting at pos. -/
def readSectionHeaderList (buf : Bytes) (pos : Nat) :
    Nat → Option (List SectionHeader)
  | 0 => some []
  | count + 1 =>
    match SectionHeader.new buf pos with
    | none => none
    | some (h, pos') =>
      match readSectionHeaderList buf pos' count with
      | none => none
      | some rest => some (h :: rest)

inductive SecFail
  | readPastEnd
  | indexOutOfBounds
  deriving DecidableEq

/-- SectionHeaders::new: seek to e_shoff, read e_shnum records, then load
the section-name string table from the header at index e_shstrndx when
e_shnum is positive (an unguarded vector index: out of bounds panics),
and use the empty table when e_shnum is zero. -/
def SectionHeaders.new (fh : ElfFileHeader) (buf : Bytes) :
    Except SecFail SectionHeaders :=
  match readSectionHeaderList buf fh.e_shoff fh.e_shnum with
  | none => .error .readPastEnd
  | some headers =>
    if 0 < fh.e_shnum then
      match headers.get? fh.e_shstrndx with
      | none => .error .indexOutOfBounds
      | some h => .ok ⟨headers, StringTable.new h buf⟩
    else .ok ⟨headers, StringTable.empty⟩

/-- SectionHeaders::get_all: order-preserving linear scan. -/
def SectionHeaders.get_all (hs : SectionHeaders) (t : SectionHeaderType) :
    List SectionHeader :=
  hs.headers.filter (fun h => decide (h.sh_type = t))

/-- SectionHeaders::get: pop of get_all, i.e. the last matching header. -/
def SectionHeaders.get (hs : SectionHeaders) (t : SectionHeaderType) :
    Option SectionHeader :=
  (hs.get_all t).getLast?

/-- SectionHeaders::get_by_index: plain vector indexing; the source panics
out of bounds, modelled by none. -/
def SectionHeaders.get_by_index (hs : SectionHeaders) (index : Nat) :
    Option SectionHeader :=
  hs.headers.get? index

/- ===== src/symbols.rs: symbols ===== -/

inductive SymbolType
  | NoType | Object | Func | Section | File | Common | Tls | GnuIndFun
  | Unknown (v : Nat)
  deriving DecidableEq

/-- SymbolType::new: dispatch on the low nibble of the info byte. -/
def SymbolType.new (info : Nat) : SymbolType :=
  match info &&& 0xf with
  | 0 => SymbolType.NoType
  | 1 => SymbolType.Object
  | 2 => SymbolType.Func
  | 3 => SymbolType.Section
  | 4 => SymbolType.File
  | 5 => SymbolType.Common
  | 6 => SymbolType.Tls
  | 10 => SymbolType.GnuIndFun
  | v => SymbolType.Unknown v

inductive SymbolBinding
  | Local | Global | Weak | GnuUnique | Unknown (v : Nat)
  deriving DecidableEq

/-- SymbolBinding::new: dispatch on the high nibble of the info byte. -/
def SymbolBinding.new (info : Nat) : SymbolBinding :=
  match info >>> 4 with
  | 0 => SymbolBinding.Local
  | 1 => SymbolBinding.Global
  | 2 => SymbolBinding.Weak
  | 10 => SymbolBinding.GnuUnique
  | v => SymbolBinding.Unknown v

inductive SymbolVisibility
  | Default | Internal | Hidden | Protected
  deriving DecidableEq

/-- SymbolVisibility::new: dispatch on the low two bits of the other byte
(the catch-all arm of the source is unreachable and maps to Default). -/
def SymbolVisibility.new (other : Nat) : SymbolVisibility :=
  match other &&& 0x3 with
  | 0 => SymbolVisibility.Default
  | 1 => SymbolVisibility.Internal
  | 2 => SymbolVisibility.Hidden
  | 3 => SymbolVisibility.Protected
  | _ => SymbolVisibility.Default

structure Symbol where
  st_name : Nat
  st_type : SymbolType
  st_bind : SymbolBinding
  st_vis : SymbolVisibility
  st_shndx : Nat
  st_value : Nat
  st_size : Nat
  deriving DecidableEq

/-- Symbol::new: 4 + 1 + 1 + 2 + 8 + 8 = 24 sequential bytes; the type and
binding both come from the single info byte. -/
def Symbol.new (buf : Bytes) (pos : Nat) : Option (Symbol × Nat) :=
  match readU32 buf pos with
  | none => none
  | some (st_name, pos) =>
  match readU8 buf pos with
  | none => none
  | some (st_info, pos) =>
  match readU8 buf pos with
  | none => none
  | some (st_other, pos) =>
  match readU16 buf pos with
  | none => none
  | some (st_shndx, pos) =>
  match readU64 buf pos with
  | none => none
  | some (st_value, pos) =>
  match readU64 buf pos with
  | none => none
  | some (st_size, pos) =>
    some ({ st_name := st_name, st_type := SymbolType.new st_info,
            st_bind := SymbolBinding.new st_info,
            st_vis := SymbolVisibility.new st_other, st_shndx := st_shndx,
            st_value := st_value, st_size := st_size }, pos)

structure SymbolTable where
  data : List Symbol
  strtab : StringTable
  name : Bytes
  symsize : Nat
  deriving DecidableEq

/-- The while loop of SymbolTable::new: starting from a running total i,
keep reading sequential symbol records while i < size, adding entsize to
the total before each read. The fuel argument bounds the iteration count;
the wrapper passes enough fuel for every terminating run of the source
loop, so exhaustion models the divergence of the source on entsize zero. -/
def symLoop (buf : Bytes) (entsize size : Nat) :
    Nat → Nat → Nat → Option (List Symbol)
  | 0, _, _ => none
  | fuel + 1, pos, i =>
    if i < size then
      match Symbol.new buf pos with
      | none => none
      | some (s, pos') =>
        match symLoop buf entsize size fuel pos' (i + entsize) with
        | none => none
        | some rest => some (s :: rest)
    else some []

/-- SymbolTable::new: seek to sh_offset, run the size-budget loop, then
resolve the string table of the symbol table via sh_link (an unguarded
vector index, modelled by none on out of bounds) and the section name via
the section-name string table (whose lookup panics, none here, when the
name offset exceeds that table). -/
def SymbolTable.new (headers : SectionHeaders) (header : SectionHeader)
    (buf : Bytes) : Option SymbolTable :=
  match symLoop buf header.sh_entsize header.sh_size (header.sh_size + 1)
      header.sh_offset 0 with
  | none => none
  | some data =>
    match headers.headers.get? header.sh_link with
    | none => none
    | some strtabHdr =>
      match headers.strtab.get header.sh_name with
      | none => none
      | some name =>
        some { data := data, strtab := StringTable.new strtabHdr buf,
               name := name, symsize := header.sh_entsize }

/- ===== src/dynamic.rs ===== -/

inductive DynamicEntryTag
  | Null | Needed | PltRelocsSize | PltGot | Hash | Strtab | Symtab
  | Rela | RelaSize | RelaEntSize | StrtabSize | SymtabEntSize | Init
  | Fini | SoName | Rpath | Symbolic | Rel | RelSize | RelEntSize
  | PltRel | Debug | TextRel | JmpRel | BindNow | InitArray | FiniArray
  | InitiArraySize | FiniArraySize | RunPath | Flags | Encoding
  | PreInitArray | PreInitArraySize | SymtabSectionHeadeIndex
  | GnuVerSym | GnuRelaCount | GnuRelCount | StateFlags | GnuVerDef
  | GnuVerDefNum | GnuVerNeed | GnuVerNeedNum | GnuHashTable
  | Unknown (v : Nat)
  deriving DecidableEq

def DynamicEntryTag.new (value : Nat) : DynamicEntryTag :=
  match value with
  | 0 => DynamicEntryTag.Null
  | 1 => DynamicEntryTag.Needed
  | 2 => DynamicEntryTag.PltRelocsSize
  | 3 => DynamicEntryTag.PltGot
  | 4 => DynamicEntryTag.Hash
  | 5 => DynamicEntryTag.Strtab
  | 6 => DynamicEntryTag.Symtab
  | 7 => DynamicEntryTag.Rela
  | 8 => DynamicEntryTag.RelaSize
  | 9 => DynamicEntryTag.RelaEntSize
  | 10 => DynamicEntryTag.StrtabSize
  | 11 => DynamicEntryTag.SymtabEntSize
  | 12 => DynamicEntryTag.Init
  | 13 => DynamicEntryTag.Fini
  | 14 => DynamicEntryTag.SoName
  | 15 => DynamicEntryTag.Rpath
  | 16 => DynamicEntryTag.Symbolic
  | 17 => DynamicEntryTag.Rel
  | 18 => DynamicEntryTag.RelSize
  | 19 => DynamicEntryTag.RelEntSize
  | 20 => DynamicEntryTag.PltRel
  | 21 => DynamicEntryTag.Debug
  | 22 => DynamicEntryTag.TextRel
  | 23 => DynamicEntryTag.JmpRel
  | 24 => DynamicEntryTag.BindNow
  | 25 => DynamicEntryTag.InitArray
  | 26 => DynamicEntryTag.FiniArray
  | 27 => DynamicEntryTag.InitiArraySize
  | 28 => DynamicEntryTag.FiniArraySize
  | 29 => DynamicEntryTag.RunPath
  | 30 => DynamicEntryTag.Flags
  | 31 => DynamicEntryTag.Encoding
  | 32 => DynamicEntryTag.PreInitArray
  | 33 => DynamicEntryTag.PreInitArraySize
  | 34 => DynamicEntryTag.SymtabSectionHeadeIndex
  | 0x6ffffff0 => DynamicEntryTag.GnuVerSym
  | 0x6ffffff9 => DynamicEntryTag.GnuRelaCount
  | 0x6ffffffa => DynamicEntryTag.GnuRelCount
  | 0x6ffffffb => DynamicEntryTag.StateFlags
  | 0x6ffffffc => DynamicEntryTag.GnuVerDef
  | 0x6ffffffd => DynamicEntryTag.GnuVerDefNum
  | 0x6ffffffe => DynamicEntryTag.GnuVerNeed
  | 0x6fffffff => DynamicEntryTag.GnuVerNeedNum
  | 0x6ffffef5 => DynamicEntryTag.GnuHashTable
  | v => DynamicEntryTag.Unknown v

structure DynamicEntry where
  tag : DynamicEntryTag
  value : Nat
  deriving DecidableEq

/-- DynamicEntry::new: two sequential u64 reads, tag then value. -/
def DynamicEntry.new (buf : Bytes) (pos : Nat) : Option (DynamicEntry × Nat) :=
  match readU64 buf pos with
  | none => none
  | some (t, pos) =>
  match readU64 buf pos with
  | none => none
  | some (value, pos) =>
    some ({ tag := DynamicEntryTag.new t, value := value }, pos)

structure DynamicSection where
  data : List DynamicEntry
  strtab : StringTable
  deriving DecidableEq

/-- The entry loop of DynamicSection::new (src/dynamic.rs): push each
entry and stop after pushing an entry whose tag is Null. Each iteration
consumes 16 bytes, so the fuel of the wrapper covers every terminating
run; a failed read models the unwrap panic of the source. -/
def readDynEntries (buf : Bytes) : Nat → Nat → Option (List DynamicEntry)
  | 0, _ => none
  | fuel + 1, pos =>
    match DynamicEntry.new buf pos with
    | none => none
    | some (e, pos') =>
      if e.tag = DynamicEntryTag.Null then some [e]
      else
        match readDynEntries buf fuel pos' with
        | none => none
        | some rest => some (e :: rest)

/-- Entry loop of src/dynamic.rs with enough fuel for any terminating run
(an iteration consumes 16 bytes of the buffer). -/
def readDynamicEntries (buf : Bytes) (pos : Nat) : Option (List DynamicEntry) :=
  readDynEntries buf (buf.length / 16 + 1) pos

inductive DynFail
  | readPastEnd
  | indexOutOfBounds
  deriving DecidableEq

/-- DynamicSection::new (src/dynamic.rs): find the dynamic section header
with get (absent gives the explicit none result), read the sentinel
terminated entry list at its file offset, and load the string table from
the section header at index sh_link of the dynamic section header. -/
def DynamicSection.new (headers : SectionHeaders) (buf : Bytes) :
    Except DynFail (Option DynamicSection) :=
  match headers.get SectionHeaderType.Dynamic with
  | none => .ok none
  | some header =>
    match readDynamicEntries buf header.sh_offset with
    | none => .error .readPastEnd
    | some entries =>
      match headers.headers.get? header.sh_link with
      | none => .error .indexOutOfBounds
      | some strtabHdr =>
        .ok (some { data := entries, strtab := StringTable.new strtabHdr buf })

/- ===== DynamicSection::new of the historical decoder src/main.rs ===== -/

/-- The entry loop of the main.rs DynamicSection::new: like the modular
loop, but it also records the values of the last Strtab and StrtabSize
entries seen before the Null terminator (both start at zero). -/
def readDynEntriesMain (buf : Bytes) :
    Nat → Nat → Nat → Nat → Option (List DynamicEntry × Nat × Nat)
  | 0, _, _, _ => none
  | fuel + 1, pos, addr, size =>
    match DynamicEntry.new buf pos with
    | none => none
    | some (e, pos') =>
      if e.tag = DynamicEntryTag.Null then some ([e], addr, size)
      else
        let addr' := if e.tag = DynamicEntryTag.Strtab then e.value else addr
        let size' := if e.tag = DynamicEntryTag.StrtabSize then e.value else size
        match readDynEntriesMain buf fuel pos' addr' size' with
        | none => none
        | some (rest, a, s) => some (e :: rest, a, s)

/-- main.rs entry loop with enough fuel for any terminating run. -/
def readMainDynamicEntries (buf : Bytes) (pos : Nat) :
    Option (List DynamicEntry × Nat × Nat) :=
  readDynEntriesMain buf (buf.length / 16 + 1) pos 0 0

/-- DynamicSection::new of src/main.rs. The dynamic section header is the
first one of dynamic type (the finding loop breaks on the first match);
absence yields an empty DynamicSection rather than an option. The string
table loop of the source skips headers that are not of string type and
breaks unconditionally after inspecting the first string-typed header, so
only that header is ever compared against the recorded Strtab address and
StrtabSize; on a mismatch the string table stays empty. -/
def MainDynamicSection.new (headers : SectionHeaders) (buf : Bytes) :
    Except DynFail DynamicSection :=
  match headers.headers.find? (fun h => decide (h.sh_type = SectionHeaderType.Dynamic)) with
  | none => .ok { data := [], strtab := StringTable.empty }
  | some header =>
    match readMainDynamicEntries buf header.sh_offset with
    | none => .error .readPastEnd
    | some (entries, strtab_addr, strtab_size) =>
      let strtab :=
        match headers.headers.find? (fun h => decide (h.sh_type = SectionHeaderType.Strtab)) with
        | none => StringTable.empty
        | some h =>
          if h.sh_addr = strtab_addr ∧ h.sh_size = strtab_size
          then StringTable.new h buf else StringTable.empty
      .ok { data := entries, strtab := strtab }

/- ===== src/relocs.rs ===== -/

structure RelocationEntry where
  offset : Nat
  reltype : Nat
  symidx : Nat
  addend : Option Int
  deriving DecidableEq

/-- RelocationEntry::new: u64 offset, u32 type, u32 symbol index, and for
the with-addend kind one extra signed 64-bit read. -/
def RelocationEntry.new (buf : Bytes) (pos : Nat) (has_addend : Bool) :
    Option (RelocationEntry × Nat) :=
  match readU64 buf pos with
  | none => none
  | some (offset, pos) =>
  match readU32 buf pos with
  | none => none
  | some (reltype, pos) =>
  match readU32 buf pos with
  | none => none
  | some (symidx, pos) =>
    if has_addend then
      match readI64 buf pos with
      | none => none
      | some (addend, pos) =>
        some ({ offset := offset, reltype := reltype, symidx := symidx,
                addend := some addend }, pos)
    else
      some ({ offset := offset, reltype := reltype, symidx := symidx,
              addend := none }, pos)

structure RelocationSection where
  entries : List RelocationEntry
  symtab : SymbolTable
  name : Bytes
  kind : SectionHeaderType
  deriving DecidableEq

/-- The loop of RelocationSection::new: while the running offset is below
the section size, seek to sh_offset + offset, read one record (with the
addend field exactly when the section type is Rela), and advance the
offset by sh_entsize. -/
def relocLoop (buf : Bytes) (shOffset entsize size : Nat) (hasAddend : Bool) :
    Nat → Nat → Option (List RelocationEntry)
  | 0, _ => none
  | fuel + 1, off =>
    if off < size then
      match RelocationEntry.new buf (shOffset + off) hasAddend with
      | none => none
      | some (e, _) =>
        match relocLoop buf shOffset entsize size hasAddend fuel (off + entsize) with
        | none => none
        | some rest => some (e :: rest)
    else some []

/-- RelocationSection::new: the addend flag is recomputed from the header
type at every iteration of the source loop but never changes. -/
def RelocationSection.new (header : SectionHeader) (name : Bytes)
    (symtab : SymbolTable) (buf : Bytes) : Option RelocationSection :=
  match relocLoop buf header.sh_offset header.sh_entsize header.sh_size
      (decide (header.sh_type = SectionHeaderType.Rela)) (header.sh_size + 1) 0 with
  | none => none
  | some entries =>
    some { entries := entries, symtab := symtab, name := name,
           kind := header.sh_type }

/- ===== src/program.rs: SegmentType ===== -/

inductive SegmentType
  | Null | Load | Dynamic | Interp | Note | ShLib | ProgramHeader
  | ThreadLocalStorage | GnuEhFrame | GnuStack | GnuRelRo | Unknown (v : Nat)
  deriving DecidableEq

def SegmentType.new (value : Nat) : SegmentType :=
  match value with
  | 0 => SegmentType.Null
  | 1 => SegmentType.Load
  | 2 => SegmentType.Dynamic
  | 3 => SegmentType.Interp
  | 4 => SegmentType.Note
  | 5 => SegmentType.ShLib
  | 6 => SegmentType.ProgramHeader
  | 7 => SegmentType.ThreadLocalStorage
  | 0x6474e550 => SegmentType.GnuEhFrame
  | 0x6474e551 => SegmentType.GnuStack
  | 0x6474e552 => SegmentType.GnuRelRo
  | v => SegmentType.Unknown v

/- ===== src/notes.rs ===== -/

/-- The let binding inside align_up of the source: a declared alignment of
at most 4 (the ABI floor) is replaced by 4. -/
def effectiveAlign (align : Nat) : Nat := if align ≤ 4 then 4 else align

/-- align_up of src/notes.rs over u64 arithmetic:
(size + align - 1) & !(align - 1), with the alignment floor applied. -/
def align_up (size align : Nat) : Nat :=
  let a := effectiveAlign align
  (((size + a - 1) % 2 ^ 64) &&& ((2 ^ 64 - 1) - ((a - 1) % 2 ^ 64)))

def ELF_NOTE_SIZE : Nat := 12

/-- Offset of the descriptor from the start of a note record. -/
def note_desc_offset (namesz align : Nat) : Nat :=
  align_up (ELF_NOTE_SIZE + namesz) align

/-- Aligned total size of a note record: where the next record begins,
measured from the start of this one. -/
def note_next_offset (namesz descsz align : Nat) : Nat :=
  align_up (note_desc_offset namesz align + descsz) align

/-- UTF-8 well-formedness of a byte sequence; models the validation done
by String::from_utf8 of the Rust standard library. -/
def validUtf8 : Bytes → Bool
  | [] => true
  | b :: rest =>
    if b ≤ 0x7F then validUtf8 rest
    else if 0xC2 ≤ b ∧ b ≤ 0xDF then
      match rest with
      | c1 :: rest1 =>
        decide (0x80 ≤ c1 ∧ c1 ≤ 0xBF) && validUtf8 rest1
      | [] => false
    else if 0xE0 ≤ b ∧ b ≤ 0xEF then
      match rest with
      | c1 :: c2 :: rest2 =>
        let lo1 := if b = 0xE0 then 0xA0 else 0x80
        let hi1 := if b = 0xED then 0x9F else 0xBF
        decide (lo1 ≤ c1 ∧ c1 ≤ hi1) && decide (0x80 ≤ c2 ∧ c2 ≤ 0xBF) &&
          validUtf8 rest2
      | _ => false
    else if 0xF0 ≤ b ∧ b ≤ 0xF4 then
      match rest with
      | c1 :: c2 :: c3 :: rest3 =>
        let lo1 := if b = 0xF0 then 0x90 else 0x80
        let hi1 := if b = 0xF4 then 0x8F else 0xBF
        decide (lo1 ≤ c1 ∧ c1 ≤ hi1) && decide (0x80 ≤ c2 ∧ c2 ≤ 0xBF) &&
          decide (0x80 ≤ c3 ∧ c3 ≤ 0xBF) && validUtf8 rest3
      | _ => false
    else false

/-- Hex digit character code, uppercase, as produced by the {:02X} format. -/
def hexDigit (n : Nat) : Nat := if n < 10 then 48 + n else 55 + n

/-- to_hex_string of src/notes.rs: two hex digits per byte, joined by a
single space, as a character-code list. -/
def toHexString (bs : Bytes) : Bytes :=
  (List.intersperse [32] (bs.map (fun b => [hexDigit (b / 16), hexDigit (b % 16)]))).flatten

inductive NoteOwner
  | Gnu | Core | Unknown
  deriving DecidableEq

/-- NoteOwner::new: classification by the exact NUL-terminated name. The
source compares decoded strings; on the byte level the comparisons are
against the UTF-8 bytes of GNU, LINUX and CORE with a trailing NUL. -/
def NoteOwner.new (name : Bytes) : NoteOwner :=
  if name = [71, 78, 85, 0] then NoteOwner.Gnu
  else if name = [76, 73, 78, 85, 88, 0] ∨ name = [67, 79, 82, 69, 0] then NoteOwner.Core
  else NoteOwner.Unknown

inductive NoteOs
  | Linux | Gnu | Solaris2 | FreeBsd | Unknown (v : Nat)
  deriving DecidableEq

def NoteOs.new (value : Nat) : NoteOs :=
  match value with
  | 0 => NoteOs.Linux
  | 1 => NoteOs.Gnu
  | 2 => NoteOs.Solaris2
  | 3 => NoteOs.FreeBsd
  | v => NoteOs.Unknown v

inductive NoteType
  | ElfNoteAbi | GnuHwCap | GnuBuildID | GnuGoldVersion | GnuProperty
  | PrStatus | PrFpReg | PrPsInfo | TaskStruct | Platform | Auxw
  | GWindows | AsRet | PsStatus | PsInfo | PrcRed | UtsName | LwpStatus
  | LwpInfo | FprxRegSet | SigInfo | MappedFiles | X86ExtendedState
  | Version | Unknown (v : Nat)
  deriving DecidableEq

/-- NoteType::gnu: type tags in the GNU namespace. -/
def NoteType.gnu (value : Nat) : NoteType :=
  match value with
  | 1 => NoteType.ElfNoteAbi
  | 2 => NoteType.GnuHwCap
  | 3 => NoteType.GnuBuildID
  | 4 => NoteType.GnuGoldVersion
  | 5 => NoteType.GnuProperty
  | v => NoteType.Unknown v

/-- NoteType::core: type tags in the core namespace. -/
def NoteType.core (value : Nat) : NoteType :=
  match value with
  | 1 => NoteType.PrStatus
  | 2 => NoteType.PrFpReg
  | 3 => NoteType.PrPsInfo
  | 4 => NoteType.TaskStruct
  | 5 => NoteType.Platform
  | 6 => NoteType.Auxw
  | 7 => NoteType.GWindows
  | 8 => NoteType.AsRet
  | 10 => NoteType.PsStatus
  | 13 => NoteType.PsInfo
  | 14 => NoteType.PrcRed
  | 15 => NoteType.UtsName
  | 16 => NoteType.LwpStatus
  | 17 => NoteType.LwpInfo
  | 20 => NoteType.FprxRegSet
  | 0x53494749 => NoteType.SigInfo
  | 0x46494c45 => NoteType.MappedFiles
  | 0x202 => NoteType.X86ExtendedState
  | v => NoteType.Unknown v

/-- NoteType::default: type tags in the generic namespace. -/
def NoteType.generic (value : Nat) : NoteType :=
  match value with
  | 1 => NoteType.Version
  | v => NoteType.Unknown v

structure MappedFile where
  start : Nat
  end_ : Nat
  page_offset : Nat
  filename : Bytes
  deriving DecidableEq

structure MappedFiles where
  count : Nat
  pagesize : Nat
  files : List MappedFile
  deriving DecidableEq

inductive NoteFail
  | ioFail
  | utf8Fail (name : Bytes)
  | badAddrSize
  | missingFilename
  | descIndex
  | seekFail
  | loopLimit
  deriving DecidableEq

/-- The readaddr closure of MappedFiles::new: an address-sized read, 4 or
8 bytes by the word size of the file; any other word size bails. -/
def readAddr (addrsize : Nat) (buf : Bytes) (pos : Nat) :
    Except NoteFail (Nat × Nat) :=
  match addrsize with
  | 4 => match readU32 buf pos with
         | none => .error .ioFail
         | some r => .ok r
  | 8 => match readU64 buf pos with
         | none => .error .ioFail
         | some r => .ok r
  | _ => .error .badAddrSize

/-- The inner loop of read_filenames: single-byte reads until a NUL. The
fuel of the caller covers the whole buffer, so exhaustion is impossible
before a read failure. -/
def readCString (buf : Bytes) : Nat → Nat → Option (Bytes × Nat)
  | 0, _ => none
  | fuel + 1, pos =>
    match readU8 buf pos with
    | none => none
    | some (b, pos') =>
      if b = 0 then some ([], pos')
      else
        match readCString buf fuel pos' with
        | none => none
        | some (s, p) => some (b :: s, p)

/-- The outer loop of read_filenames: count NUL-delimited names in order. -/
def readFilenamesLoop (buf : Bytes) : Nat → Nat → Option (List Bytes)
  | 0, _ => some []
  | c + 1, pos =>
    match readCString buf (buf.length + 1) pos with
    | none => none
    | some (s, pos') =>
      match readFilenamesLoop buf c pos' with
      | none => none
      | some rest => some (s :: rest)

/-- read_filenames of src/notes.rs: seek past the two header words and the
count fixed-width triples, then read count NUL-delimited names. -/
def read_filenames (buf : Bytes) (count addrsize : Nat) : Option (List Bytes) :=
  readFilenamesLoop buf count (2 * addrsize + count * 3 * addrsize)

/-- The stitching loop of MappedFiles::new: count address-sized triples
read from the fixed-width region, each joined by position with the
filename of the same index. -/
def readMappedEntries (addrsize : Nat) (buf : Bytes) (filenames : List Bytes) :
    Nat → Nat → Nat → Except NoteFail (List MappedFile)
  | 0, _, _ => .ok []
  | c + 1, idx, pos =>
    match readAddr addrsize buf pos with
    | .error e => .error e
    | .ok (s, p1) =>
    match readAddr addrsize buf p1 with
    | .error e => .error e
    | .ok (e_, p2) =>
    match readAddr addrsize buf p2 with
    | .error e => .error e
    | .ok (o, p3) =>
      match filenames.get? idx with
      | none => .error .missingFilename
      | some fn =>
        match readMappedEntries addrsize buf filenames c (idx + 1) p3 with
        | .error e => .error e
        | .ok rest =>
          .ok ({ start := s, end_ := e_, page_offset := o, filename := fn } :: rest)

/-- MappedFiles::new: a cursor over the descriptor bytes alone; two
address-sized header words (count, page size), then the two-pass read of
the trailing filename block and the fixed-width triples. -/
def MappedFiles.new (data : Bytes) (addrsize : Nat) :
    Except NoteFail MappedFiles :=
  match readAddr addrsize data 0 with
  | .error e => .error e
  | .ok (count, p1) =>
  match readAddr addrsize data p1 with
  | .error e => .error e
  | .ok (pagesize, p2) =>
    match read_filenames data count addrsize with
    | none => .error .ioFail
    | some filenames =>
      match readMappedEntries addrsize data filenames count 0 p2 with
      | .error e => .error e
      | .ok files =>
        .ok { count := count, pagesize := pagesize, files := files }

inductive NoteDesc
  | ElfNoteAbi (os : NoteOs) (major minor patch : Nat)
  | GnuHwCap (data : Bytes)
  | GnuBuildID (hex : Bytes)
  | GnuGoldVersion (hex : Bytes)
  | GnuProperty (data : Bytes)
  | MappedFiles (files : MappedFiles)
  | Unknown (data : Bytes)
  deriving DecidableEq

/-- The asu32 closure of NoteDesc::gnu: four bytes of the descriptor
assembled little-endian; indexing past the end of the descriptor panics
in the source, modelled by none. -/
def asu32 (data : Bytes) (index : Nat) : Option Nat :=
  match data.get? index, data.get? (index + 1), data.get? (index + 2),
        data.get? (index + 3) with
  | some a, some b, some c, some d =>
    some (a ||| (b <<< 8) ||| (c <<< 16) ||| (d <<< 24))
  | _, _, _, _ => none

/-- NoteDesc::gnu: descriptor interpretation in the GNU namespace. -/
def NoteDesc.gnu (value : NoteType) (data : Bytes) : Except NoteFail NoteDesc :=
  match value with
  | NoteType.ElfNoteAbi =>
    match asu32 data 0, asu32 data 4, asu32 data 8, asu32 data 12 with
    | some os, some major, some minor, some patch =>
      .ok (NoteDesc.ElfNoteAbi (NoteOs.new os) major minor patch)
    | _, _, _, _ => .error .descIndex
  | NoteType.GnuHwCap => .ok (NoteDesc.GnuHwCap data)
  | NoteType.GnuBuildID => .ok (NoteDesc.GnuBuildID (toHexString data))
  | NoteType.GnuGoldVersion => .ok (NoteDesc.GnuGoldVersion (toHexString data))
  | NoteType.GnuProperty => .ok (NoteDesc.GnuProperty data)
  | _ => .ok (NoteDesc.Unknown data)

/-- NoteDesc::core: descriptor interpretation in the core namespace. -/
def NoteDesc.core (value : NoteType) (data : Bytes) (addrsize : Nat) :
    Except NoteFail NoteDesc :=
  match value with
  | NoteType.MappedFiles =>
    match MappedFiles.new data addrsize with
    | .error e => .error e
    | .ok mf => .ok (NoteDesc.MappedFiles mf)
  | _ => .ok (NoteDesc.Unknown data)

/-- NoteDesc::default: descriptor interpretation outside GNU and core. -/
def NoteDesc.generic (data : Bytes) : NoteDesc := NoteDesc.Unknown data

structure Note where
  name_size : Nat
  desc_size : Nat
  note_type : NoteType
  name : Bytes
  desc : NoteDesc
  deriving DecidableEq

/-- Note::new at an absolute record start: the fixed 12-byte sub-header
(name length, descriptor length, type), the name bytes, a relative seek
of note_desc_offset - (name length + 12) to the aligned descriptor start
(a negative distance underflows in the source, modelled as seekFail), the
descriptor bytes, then the UTF-8 decoding of the name, whose failure is
the propagated utf8Fail error; the owner, decided by the name, selects
the interpretation of the type tag and of the descriptor. -/
def Note.new (addrsize align : Nat) (buf : Bytes) (pos : Nat) :
    Except NoteFail Note :=
  match readU32 buf pos with
  | none => .error .ioFail
  | some (name_size, p1) =>
  match readU32 buf p1 with
  | none => .error .ioFail
  | some (desc_size, p2) =>
  match readU32 buf p2 with
  | none => .error .ioFail
  | some (type_, p3) =>
  match readBytes buf p3 name_size with
  | none => .error .ioFail
  | some (name_, p4) =>
    let cur := name_size + ELF_NOTE_SIZE
    if note_desc_offset name_size align < cur then .error .seekFail
    else
      let off := note_desc_offset name_size align - cur
      match readBytes buf (p4 + off) desc_size with
      | none => .error .ioFail
      | some (desc_, _) =>
        if validUtf8 name_ then
          let owner := NoteOwner.new name_
          let note_type :=
            match owner with
            | NoteOwner.Gnu => NoteType.gnu type_
            | NoteOwner.Core => NoteType.core type_
            | NoteOwner.Unknown => NoteType.generic type_
          let descRes :=
            match owner with
            | NoteOwner.Gnu => NoteDesc.gnu note_type desc_
            | NoteOwner.Core => NoteDesc.core note_type desc_ addrsize
            | NoteOwner.Unknown => .ok (NoteDesc.generic desc_)
          match descRes with
          | .error e => .error e
          | .ok desc =>
            .ok { name_size := name_size, desc_size := desc_size,
                  note_type := note_type, name := name_, desc := desc }
        else .error (.utf8Fail name_)

structure NoteSection where
  data : List Note
  name : Bytes
  deriving DecidableEq

/-- The loop of NoteSection::new_from_file: while the running position is
below the declared size, parse a note at offset + pos, advance the
position by the aligned total record size, and stop without emitting the
record when its name length is zero. Fuel exhaustion (loopLimit) models a
run of the source loop that never terminates. -/
def noteLoop (addrsize align offset size : Nat) (buf : Bytes) :
    Nat → Nat → Except NoteFail (List Note)
  | 0, _ => .error .loopLimit
  | fuel + 1, pos =>
    if pos < size then
      match Note.new addrsize align buf (offset + pos) with
      | .error e => .error e
      | .ok note =>
        let pos' := pos + note_next_offset note.name_size note.desc_size align
        if note.name_size = 0 then .ok []
        else
          match noteLoop addrsize align offset size buf fuel pos' with
          | .error e => .error e
          | .ok rest => .ok (note :: rest)
    else .ok []

/-- NoteSection::new_from_file over a region given by offset, size and
declared alignment. -/
def NoteSection.new_from_file (addrsize offset size align : Nat)
    (name : Option Bytes) (buf : Bytes) : Except NoteFail NoteSection :=
  match noteLoop addrsize align offset size buf (size + 1) 0 with
  | .error e => .error e
  | .ok data => .ok { data := data, name := name.getD [] }

/- ===== Supporting lemmas ===== -/

theorem readUInt_succeeds (n : Nat) (buf : Bytes) (pos : Nat)
    (h : pos + n ≤ buf.length) :
    readUInt n buf pos = some (leVal ((buf.drop pos).take n), pos + n) := by
  simp [readUInt, readBytes, h]

theorem readUInt_pos_eq {n : Nat} {buf : Bytes} {pos v p : Nat}
    (h : readUInt n buf pos = some (v, p)) : p = pos + n := by
  unfold readUInt readBytes at h
  split at h <;> simp_all

theorem readBytes_pos_eq {buf : Bytes} {pos n : Nat} {bs : Bytes} {p : Nat}
    (h : readBytes buf pos n = some (bs, p)) : p = pos + n ∧ bs.length = n := by
  unfold readBytes at h
  split at h
  · simp only [Option.some.injEq, Prod.mk.injEq] at h
    obtain ⟨hbs, hp⟩ := h
    subst hbs
    constructor
    · omega
    · simp only [List.length_take, List.length_drop]
      omega
  · exact absurd h (by simp)

/- ===== Claim C3 ===== -/

/-- Claim C3: for every input buffer whose first four bytes are not the
ELF magic, file-header decoding returns the distinguished magic-mismatch
error carrying those four bytes, and no header is produced; whenever the
first four bytes equal the magic, the magic-mismatch error is never
returned. -/
theorem claim_C3 :
    (∀ buf : Bytes, 4 ≤ buf.length → buf.take 4 ≠ ELF_MAGIC →
      ElfFileHeader.new buf = .error (.ElfMagicMismatchError (buf.take 4))) ∧
    (∀ buf : Bytes, buf.take 4 = ELF_MAGIC →
      ∀ m, ElfFileHeader.new buf ≠ .error (.ElfMagicMismatchError m)) := by
  constructor
  · intro buf hlen hm
    have hrb : readBytes buf 0 4 = some (buf.take 4, 4) := by
      simp [readBytes, hlen]
    unfold ElfFileHeader.new
    rw [hrb]
    simp [hm]
  · intro buf hm m h
    have hlen : 4 ≤ buf.length := by
      have h4 : (buf.take 4).length = 4 := by rw [hm]; rfl
      simp [List.length_take] at h4
      omega
    have hrb : readBytes buf 0 4 = some (buf.take 4, 4) := by
      simp [readBytes, hlen]
    unfold ElfFileHeader.new at h
    rw [hrb] at h
    simp only [hm, if_true] at h
    repeat' split at h
    all_goals simp_all

/-- Witness for claim C3 at a mismatching and at a matching buffer. -/
theorem claim_C3_witness :
    ElfFileHeader.new [1, 2, 3, 4] = .error (.ElfMagicMismatchError [1, 2, 3, 4]) ∧
    ∀ m, ElfFileHeader.new [0x7f, 0x45, 0x4c, 0x46] ≠ .error (.ElfMagicMismatchError m) :=
  ⟨claim_C3.1 [1, 2, 3, 4] (by decide) (by decide),
   claim_C3.2 [0x7f, 0x45, 0x4c, 0x46] (by decide)⟩

/- ===== Claim C6 ===== -/

def fileClassCodes : List Nat := [0, 1, 2]

def encodingCodes : List Nat := [0, 1, 2]

def osAbiCodes : List Nat := [0, 1, 2, 3, 6, 7, 8, 9, 10, 11, 12, 64, 97, 255]

def objectTypeCodes : List Nat := [0, 1, 2, 3, 4]

def versionCodes : List Nat := [0, 1]

def sectionHeaderTypeCodes : List Nat :=
  [0, 1, 2, 3, 4, 5, 6, 7, 8, 9, 11, 14, 15, 16, 17, 18,
   0x6ffffff5, 0x6ffffff6, 0x6ffffff7, 0x6ffffff8,
   0x6ffffffd, 0x6ffffffe, 0x6fffffff]

def dynamicEntryTagCodes : List Nat :=
  [0, 1, 2, 3, 4, 5, 6, 7, 8, 9, 10, 11, 12, 13, 14, 15, 16, 17, 18, 19,
   20, 21, 22, 23, 24, 25, 26, 27, 28, 29, 30, 31, 32, 33, 34,
   0x6ffffff0, 0x6ffffff9, 0x6ffffffa, 0x6ffffffb, 0x6ffffffc,
   0x6ffffffd, 0x6ffffffe, 0x6fffffff, 0x6ffffef5]

def segmentTypeCodes : List Nat :=
  [0, 1, 2, 3, 4, 5, 6, 7, 0x6474e550, 0x6474e551, 0x6474e552]

/-- Claim C6: every enumerated tag or type decoder is total; an
unrecognized numeric code maps to the Unknown or Invalid variant carrying
the raw value, and every recognized code maps to its named variant. -/
theorem claim_C6 :
    (∀ v, v ∉ fileClassCodes → FileClass.new v = .Invalid v) ∧
    fileClassCodes.map FileClass.new = [.None, .ElfClass32, .ElfClass64] ∧
    (∀ v, v ∉ encodingCodes → Encoding.new v = .Invalid v) ∧
    encodingCodes.map Encoding.new = [.None, .LittleEndian, .BigEndian] ∧
    (∀ v, v ∉ osAbiCodes → OsAbi.new v = .Invalid v) ∧
    osAbiCodes.map OsAbi.new =
      [.UnixVSystem, .HpUx, .NetBsd, .GnuElfExtensions, .SunSolaris, .IbmAix,
       .SgiIrix, .FreeBsd, .CompaqTru64Unix, .NovellModesto, .OpenBsd,
       .ArmEabi, .Arm, .Standalone] ∧
    (∀ v, v ∉ objectTypeCodes → ObjectType.new v = .Invalid v) ∧
    objectTypeCodes.map ObjectType.new =
      [.NoFileType, .RelocatableFile, .ExecutableFile, .SharedObjectFile,
       .CoreFile] ∧
    (∀ v, v ∉ versionCodes → Version.new v = .Invalid v) ∧
    versionCodes.map Version.new = [.Unspecified, .Current] ∧
    (∀ v, v ∉ sectionHeaderTypeCodes → SectionHeaderType.new v = .Unknown v) ∧
    sectionHeaderTypeCodes.map SectionHeaderType.new =
      [.Null, .Data, .Symtab, .Strtab, .Rela, .Hash, .Dynamic, .Note, .Bss,
       .Rel, .DynSym, .InitArray, .FiniArray, .PreInitArray, .Group,
       .SymtabShndx, .GnuAttributes, .GnuHash, .GnuLibList, .Checksum,
       .GnuVerDef, .GnuVerNeed, .GnuVerSym] ∧
    (∀ v, v ∉ dynamicEntryTagCodes → DynamicEntryTag.new v = .Unknown v) ∧
    dynamicEntryTagCodes.map DynamicEntryTag.new =
      [.Null, .Needed, .PltRelocsSize, .PltGot, .Hash, .Strtab, .Symtab,
       .Rela, .RelaSize, .RelaEntSize, .StrtabSize, .SymtabEntSize, .Init,
       .Fini, .SoName, .Rpath, .Symbolic, .Rel, .RelSize, .RelEntSize,
       .PltRel, .Debug, .TextRel, .JmpRel, .BindNow, .InitArray, .FiniArray,
       .InitiArraySize, .FiniArraySize, .RunPath, .Flags, .Encoding,
       .PreInitArray, .PreInitArraySize, .SymtabSectionHeadeIndex,
       .GnuVerSym, .GnuRelaCount, .GnuRelCount, .StateFlags, .GnuVerDef,
       .GnuVerDefNum, .GnuVerNeed, .GnuVerNeedNum, .GnuHashTable] ∧
    (∀ v, v ∉ segmentTypeCodes → SegmentType.new v = .Unknown v) ∧
    segmentTypeCodes.map SegmentType.new =
      [.Null, .Load, .Dynamic, .Interp, .Note, .ShLib, .ProgramHeader,
       .ThreadLocalStorage, .GnuEhFrame, .GnuStack, .GnuRelRo] := by
  refine ⟨?_, by decide, ?_, by decide, ?_, by decide, ?_, by decide,
          ?_, by decide, ?_, by decide, ?_, by decide, ?_, by decide⟩
  · intro v hv
    simp only [fileClassCodes, List.mem_cons, List.not_mem_nil, or_false] at hv
    push_neg at hv
    unfold FileClass.new; split <;> first | rfl | omega
  · intro v hv
    simp only [encodingCodes, List.mem_cons, List.not_mem_nil, or_false] at hv
    push_neg at hv
    unfold Encoding.new; split <;> first | rfl | omega
  · intro v hv
    simp only [osAbiCodes, List.mem_cons, List.not_mem_nil, or_false] at hv
    push_neg at hv
    unfold OsAbi.new; split <;> first | rfl | omega
  · intro v hv
    simp only [objectTypeCodes, List.mem_cons, List.not_mem_nil, or_false] at hv
    push_neg at hv
    unfold ObjectType.new; split <;> first | rfl | omega
  · intro v hv
    simp only [versionCodes, List.mem_cons, List.not_mem_nil, or_false] at hv
    push_neg at hv
    unfold Version.new; split <;> first | rfl | omega
  · intro v hv
    simp only [sectionHeaderTypeCodes, List.mem_cons, List.not_mem_nil,
      or_false] at hv
    push_neg at hv
    unfold SectionHeaderType.new; split <;> first | rfl | omega
  · intro v hv
    simp only [dynamicEntryTagCodes, List.mem_cons, List.not_mem_nil,
      or_false] at hv
    push_neg at hv
    unfold DynamicEntryTag.new; split <;> first | rfl | omega
  · intro v hv
    simp only [segmentTypeCodes, List.mem_cons, List.not_mem_nil, or_false] at hv
    push_neg at hv
    unfold SegmentType.new; split <;> first | rfl | omega

/-- Witness for claim C6: each fallback applied at an unrecognized code. -/
theorem claim_C6_witness :
    FileClass.new 9 = .Invalid 9 ∧ Encoding.new 9 = .Invalid 9 ∧
    OsAbi.new 13 = .Invalid 13 ∧ ObjectType.new 9 = .Invalid 9 ∧
    Version.new 9 = .Invalid 9 ∧ SectionHeaderType.new 10 = .Unknown 10 ∧
    DynamicEntryTag.new 35 = .Unknown 35 ∧ SegmentType.new 8 = .Unknown 8 := by
  obtain ⟨h1, -, h2, -, h3, -, h4, -, h5, -, h6, -, h7, -, h8, -⟩ := claim_C6
  exact ⟨h1 9 (by decide), h2 9 (by decide), h3 13 (by decide),
         h4 9 (by decide), h5 9 (by decide), h6 10 (by decide),
         h7 35 (by decide), h8 8 (by decide)⟩

/- ===== Claim C1 ===== -/

theorem Symbol_new_some (buf : Bytes) (pos : Nat) (h : pos + 24 ≤ buf.length) :
    ∃ s, Symbol.new buf pos = some (s, pos + 24) := by
  unfold Symbol.new readU32 readU8 readU16 readU64
  simp only [readUInt_succeeds 4 buf pos (by omega),
      readUInt_succeeds 1 buf (pos + 4) (by omega),
      readUInt_succeeds 1 buf (pos + 4 + 1) (by omega),
      readUInt_succeeds 2 buf (pos + 4 + 1 + 1) (by omega),
      readUInt_succeeds 8 buf (pos + 4 + 1 + 1 + 2) (by omega),
      readUInt_succeeds 8 buf (pos + 4 + 1 + 1 + 2 + 8) (by omega)]
  have heq : pos + 4 + 1 + 1 + 2 + 8 + 8 = pos + 24 := by omega
  rw [heq]
  exact ⟨_, rfl⟩

theorem symLoop_count (buf : Bytes) (entsize : Nat) (hent : 0 < entsize) :
    ∀ (n size fuel pos i : Nat), size = i + entsize * n → n < fuel →
      pos + 24 * n ≤ buf.length →
      ∃ l, symLoop buf entsize size fuel pos i = some l ∧ l.length = n := by
  intro n
  induction n with
  | zero =>
    intro size fuel pos i hsize hfuel hlen
    obtain ⟨f, rfl⟩ : ∃ f, fuel = f + 1 := ⟨fuel - 1, by omega⟩
    refine ⟨[], ?_, rfl⟩
    unfold symLoop
    have : ¬i < size := by omega
    simp [this]
  | succ n ih =>
    intro size fuel pos i hsize hfuel hlen
    obtain ⟨f, rfl⟩ : ∃ f, fuel = f + 1 := ⟨fuel - 1, by omega⟩
    have hmul : entsize * (n + 1) = entsize * n + entsize := by ring
    have hlt : i < size := by omega
    obtain ⟨s, hs⟩ := Symbol_new_some buf pos (by omega)
    obtain ⟨l, hl, hlen'⟩ := ih size f (pos + 24) (i + entsize)
      (by omega) (by omega) (by omega)
    refine ⟨s :: l, ?_, by simp [hlen']⟩
    unfold symLoop
    simp [hlt, hs, hl]

/-- Claim C1, amended: a symbol-table section with positive entry size and
declared size entsize * n yields exactly n symbol records (given that the
buffer covers the records, sh_link is in range, and the name offset lies
within the section-name string table), and info byte 0x12 decodes to
binding Global (high nibble 1) and type Func (low nibble 2; Object is the
decoding of low nibble 1). -/
theorem claim_C1_amended :
    (∀ (headers : SectionHeaders) (header : SectionHeader) (buf : Bytes)
       (n : Nat),
       0 < header.sh_entsize →
       header.sh_size = header.sh_entsize * n →
       header.sh_offset + 24 * n ≤ buf.length →
       header.sh_link < headers.headers.length →
       header.sh_name ≤ headers.strtab.buffer.length →
       ∃ st, SymbolTable.new headers header buf = some st ∧
         st.data.length = n) ∧
    SymbolBinding.new 0x12 = SymbolBinding.Global ∧
    SymbolType.new 0x12 = SymbolType.Func := by
  refine ⟨?_, by decide, by decide⟩
  intro headers header buf n hent hsize hbuf hlink hname
  have hn : n ≤ header.sh_size := by
    calc n ≤ header.sh_entsize * n := Nat.le_mul_of_pos_left n hent
    _ = header.sh_size := hsize.symm
  obtain ⟨l, hl, hlen⟩ := symLoop_count buf header.sh_entsize hent n
    header.sh_size (header.sh_size + 1) header.sh_offset 0 (by omega)
    (by omega) hbuf
  cases hg : headers.headers.get? header.sh_link with
  | none =>
    exact absurd (List.get?_eq_none.mp hg) (by omega)
  | some strtabHdr =>
    have hget : headers.strtab.get header.sh_name =
        some ((headers.strtab.buffer.drop header.sh_name).takeWhile
          (fun ch => ch ≠ 0)) := by
      unfold StringTable.get
      rw [if_pos hname]
    refine ⟨⟨l, StringTable.new strtabHdr buf,
             (headers.strtab.buffer.drop header.sh_name).takeWhile
               (fun ch => ch ≠ 0), header.sh_entsize⟩, ?_, hlen⟩
    rw [List.get?_eq_getElem?] at hg
    simp [SymbolTable.new, hl, hg, hget]

/-- Counterexample to claim C1 as stated: the info byte 0x12 has low
nibble 2, which the decoder maps to Func, not to Object. -/
theorem claim_C1_counterexample :
    SymbolType.new 0x12 = SymbolType.Func ∧
    SymbolType.new 0x12 ≠ SymbolType.Object := by decide

/-- Witness for claim C1 at a one-record section over a 24-byte buffer. -/
theorem claim_C1_witness :
    ∃ st, SymbolTable.new
        ⟨[⟨0, SectionHeaderType.Symtab, 0, 0, 0, 24, 0, 0, 0, 24⟩],
         StringTable.empty⟩
        ⟨0, SectionHeaderType.Symtab, 0, 0, 0, 24, 0, 0, 0, 24⟩
        (List.replicate 24 0) = some st ∧ st.data.length = 1 :=
  claim_C1_amended.1
    ⟨[⟨0, SectionHeaderType.Symtab, 0, 0, 0, 24, 0, 0, 0, 24⟩],
     StringTable.empty⟩
    ⟨0, SectionHeaderType.Symtab, 0, 0, 0, 24, 0, 0, 0, 24⟩
    (List.replicate 24 0) 1 (by decide) (by decide) (by decide) (by decide)
    (by decide)

/- ===== Claim C4 ===== -/

theorem readDynEntries_shape (buf : Bytes) :
    ∀ (fuel pos : Nat) (es : List DynamicEntry),
      readDynEntries buf fuel pos = some es →
      ∃ init v, es = init ++ [⟨DynamicEntryTag.Null, v⟩] ∧
        ∀ e ∈ init, e.tag ≠ DynamicEntryTag.Null := by
  intro fuel
  induction fuel with
  | zero => intro pos es h; simp [readDynEntries] at h
  | succ f ih =>
    intro pos es h
    unfold readDynEntries at h
    cases hde : DynamicEntry.new buf pos with
    | none => rw [hde] at h; exact absurd h (by simp)
    | some ep =>
      obtain ⟨e, p'⟩ := ep
      rw [hde] at h
      by_cases ht : e.tag = DynamicEntryTag.Null
      · simp only [ht, if_true, eq_self_iff_true, Option.some.injEq] at h
        subst h
        refine ⟨[], e.value, ?_, by simp⟩
        cases e
        simp_all
      · simp only [if_neg ht] at h
        cases hr : readDynEntries buf f p' with
        | none => rw [hr] at h; exact absurd h (by simp)
        | some rest =>
          rw [hr] at h
          simp only [Option.some.injEq] at h
          subst h
          obtain ⟨init, v, heq, hall⟩ := ih p' rest hr
          refine ⟨e :: init, v, by simp [heq], ?_⟩
          intro x hx
          rcases List.mem_cons.mp hx with hx | hx
          · subst hx; exact ht
          · exact hall x hx

def dynC4bytes : Bytes :=
  [1, 0, 0, 0, 0, 0, 0, 0, 16, 0, 0, 0, 0, 0, 0, 0,
   0, 0, 0, 0, 0, 0, 0, 0, 0, 0, 0, 0, 0, 0, 0, 0,
   2, 0, 0, 0, 0, 0, 0, 0, 5, 0, 0, 0, 0, 0, 0, 0]

/-- Claim C4: the dynamic entry loop stops exactly at the first Null tag,
includes that terminating entry, and decodes nothing after it; in
particular the pair stream (1, 0x10), (0, 0) followed by a further pair
(2, 5) decodes to exactly the two entries Needed and Null. -/
theorem claim_C4 :
    (∀ (buf : Bytes) (pos : Nat) (es : List DynamicEntry),
       readDynamicEntries buf pos = some es →
       ∃ init v, es = init ++ [⟨DynamicEntryTag.Null, v⟩] ∧
         ∀ e ∈ init, e.tag ≠ DynamicEntryTag.Null) ∧
    readDynamicEntries dynC4bytes 0 =
      some [⟨DynamicEntryTag.Needed, 0x10⟩, ⟨DynamicEntryTag.Null, 0⟩] := by
  constructor
  · intro buf pos es h
    exact readDynEntries_shape buf _ pos es h
  · decide

/-- Witness for claim C4: the structural part applied to the concrete
decode of the Needed, Null, trailing-pair stream. -/
theorem claim_C4_witness :
    ∃ init v,
      ([⟨DynamicEntryTag.Needed, 0x10⟩, ⟨DynamicEntryTag.Null, 0⟩] :
        List DynamicEntry) = init ++ [⟨DynamicEntryTag.Null, v⟩] ∧
      ∀ e ∈ init, e.tag ≠ DynamicEntryTag.Null :=
  claim_C4.1 dynC4bytes 0 _ claim_C4.2

/- ===== Claim C8 ===== -/

theorem cons_getLast?_some {α : Type} :
    ∀ (r : List α) (b : α), ∃ y, (b :: r).getLast? = some y := by
  intro r
  induction r with
  | nil => exact fun b => ⟨b, rfl⟩
  | cons c r ih =>
    intro b
    obtain ⟨y, hy⟩ := ih c
    exact ⟨y, by rw [List.getLast?_cons_cons]; exact hy⟩

theorem filter_getLast?_decomp {α : Type} (p : α → Bool) :
    ∀ (l : List α) (x : α), (l.filter p).getLast? = some x →
      p x = true ∧ ∃ l1 l2, l = l1 ++ x :: l2 ∧ ∀ y ∈ l2, p y = false := by
  intro l
  induction l with
  | nil => intro x h; simp at h
  | cons a t ih =>
    intro x h
    by_cases hpa : p a
    · rw [List.filter_cons, if_pos hpa] at h
      cases hft : t.filter p with
      | nil =>
        rw [hft] at h
        simp only [List.getLast?_singleton, Option.some.injEq] at h
        subst h
        refine ⟨hpa, [], t, by simp, ?_⟩
        intro y hy
        have := List.filter_eq_nil_iff.mp hft y hy
        simpa using this
      | cons b r =>
        rw [hft, List.getLast?_cons_cons, ← hft] at h
        obtain ⟨hp, l1, l2, heq, hall⟩ := ih x h
        exact ⟨hp, a :: l1, l2, by simp [heq], hall⟩
    · rw [List.filter_cons, if_neg hpa] at h
      obtain ⟨hp, l1, l2, heq, hall⟩ := ih x h
      exact ⟨hp, a :: l1, l2, by simp [heq], hall⟩

theorem filter_getLast?_exists {α : Type} (p : α → Bool) (l : List α)
    (hx : ∃ x ∈ l, p x = true) : ∃ y, (l.filter p).getLast? = some y := by
  obtain ⟨x, hmem, hpx⟩ := hx
  cases hfl : l.filter p with
  | nil =>
    exact absurd hpx (by simpa using List.filter_eq_nil_iff.mp hfl x hmem)
  | cons b r =>
    obtain ⟨y, hy⟩ := cons_getLast?_some r b
    exact ⟨y, hy⟩

/-- Claim C8: get-first-by-type is pop of get-all, hence it yields the
last header of the requested type in table index order when one exists,
and no result when none exists. -/
theorem claim_C8 :
    (∀ (hs : SectionHeaders) (t : SectionHeaderType),
       (∀ h ∈ hs.headers, h.sh_type ≠ t) → hs.get t = none) ∧
    (∀ (hs : SectionHeaders) (t : SectionHeaderType) (h : SectionHeader),
       hs.get t = some h →
       h.sh_type = t ∧ ∃ l1 l2, hs.headers = l1 ++ h :: l2 ∧
         ∀ x ∈ l2, x.sh_type ≠ t) ∧
    (∀ (hs : SectionHeaders) (t : SectionHeaderType),
       (∃ h ∈ hs.headers, h.sh_type = t) → ∃ h, hs.get t = some h) := by
  refine ⟨?_, ?_, ?_⟩
  · intro hs t hnone
    unfold SectionHeaders.get SectionHeaders.get_all
    have hfil : hs.headers.filter (fun h => decide (h.sh_type = t)) = [] := by
      rw [List.filter_eq_nil_iff]
      intro a ha
      simp [hnone a ha]
    rw [hfil]
    rfl
  · intro hs t h hget
    unfold SectionHeaders.get SectionHeaders.get_all at hget
    obtain ⟨hp, l1, l2, heq, hall⟩ := filter_getLast?_decomp _ _ _ hget
    refine ⟨by simpa using hp, l1, l2, heq, ?_⟩
    intro x hx
    simpa using hall x hx
  · intro hs t hex
    obtain ⟨x, hmem, hpx⟩ := hex
    exact filter_getLast?_exists _ _ ⟨x, hmem, by simp [hpx]⟩

/-- Witness for claim C8 on a table with two string-typed headers: no
dynamic-typed header gives none, and get of the string type returns the
second (last) of the two. -/
theorem claim_C8_witness :
    SectionHeaders.get
      ⟨[⟨0, SectionHeaderType.Strtab, 0, 1, 0, 0, 0, 0, 0, 0⟩,
        ⟨0, SectionHeaderType.Strtab, 0, 2, 0, 0, 0, 0, 0, 0⟩],
       StringTable.empty⟩ SectionHeaderType.Dynamic = none ∧
    ((⟨0, SectionHeaderType.Strtab, 0, 2, 0, 0, 0, 0, 0, 0⟩ :
        SectionHeader).sh_type = SectionHeaderType.Strtab ∧
      ∃ l1 l2,
        [⟨0, SectionHeaderType.Strtab, 0, 1, 0, 0, 0, 0, 0, 0⟩,
         (⟨0, SectionHeaderType.Strtab, 0, 2, 0, 0, 0, 0, 0, 0⟩ :
           SectionHeader)] =
          l1 ++ ⟨0, SectionHeaderType.Strtab, 0, 2, 0, 0, 0, 0, 0, 0⟩ :: l2 ∧
        ∀ x ∈ l2, x.sh_type ≠ SectionHeaderType.Strtab) :=
  ⟨claim_C8.1
      ⟨[⟨0, SectionHeaderType.Strtab, 0, 1, 0, 0, 0, 0, 0, 0⟩,
        ⟨0, SectionHeaderType.Strtab, 0, 2, 0, 0, 0, 0, 0, 0⟩],
       StringTable.empty⟩ SectionHeaderType.Dynamic (by decide),
   claim_C8.2.1
      ⟨[⟨0, SectionHeaderType.Strtab, 0, 1, 0, 0, 0, 0, 0, 0⟩,
        ⟨0, SectionHeaderType.Strtab, 0, 2, 0, 0, 0, 0, 0, 0⟩],
       StringTable.empty⟩ SectionHeaderType.Strtab
      ⟨0, SectionHeaderType.Strtab, 0, 2, 0, 0, 0, 0, 0, 0⟩ (by decide)⟩

/- ===== Claim C7 ===== -/

theorem RelocationEntry_new_true {buf : Bytes} {pos : Nat}
    {e : RelocationEntry} {p' : Nat}
    (h : RelocationEntry.new buf pos true = some (e, p')) :
    (∃ a, e.addend = some a) ∧ p' = pos + 24 := by
  unfold RelocationEntry.new at h
  simp only [eq_self_iff_true, if_true] at h
  cases h1 : readU64 buf pos with
  | none => rw [h1] at h; exact absurd h (by simp)
  | some vp1 =>
    obtain ⟨v1, p1⟩ := vp1
    rw [h1] at h
    simp only [Option.some.injEq] at h
    cases h2 : readU32 buf p1 with
    | none => rw [h2] at h; exact absurd h (by simp)
    | some vp2 =>
      obtain ⟨v2, p2⟩ := vp2
      rw [h2] at h
      simp only [Option.some.injEq] at h
      cases h3 : readU32 buf p2 with
      | none => rw [h3] at h; exact absurd h (by simp)
      | some vp3 =>
        obtain ⟨v3, p3⟩ := vp3
        rw [h3] at h
        simp only [Option.some.injEq] at h
        cases h4 : readI64 buf p3 with
        | none => rw [h4] at h; exact absurd h (by simp)
        | some vp4 =>
          obtain ⟨v4, p4⟩ := vp4
          rw [h4] at h
          simp only [Option.some.injEq, Prod.mk.injEq] at h
          obtain ⟨he, hp⟩ := h
          subst he
          have e1 := readUInt_pos_eq h1
          have e2 := readUInt_pos_eq h2
          have e3 := readUInt_pos_eq h3
          have e4 : p4 = p3 + 8 := by
            unfold readI64 at h4
            cases h5 : readU64 buf p3 with
            | none => rw [h5] at h4; exact absurd h4 (by simp)
            | some vp5 =>
              rw [h5] at h4
              simp only [Option.map_some', Option.some.injEq] at h4
              have := readUInt_pos_eq h5
              cases vp5
              simp_all
          exact ⟨⟨v4, rfl⟩, by omega⟩

theorem RelocationEntry_new_false {buf : Bytes} {pos : Nat}
    {e : RelocationEntry} {p' : Nat}
    (h : RelocationEntry.new buf pos false = some (e, p')) :
    e.addend = none ∧ p' = pos + 16 := by
  unfold RelocationEntry.new at h
  simp only [Bool.false_eq_true, if_false] at h
  cases h1 : readU64 buf pos with
  | none => rw [h1] at h; exact absurd h (by simp)
  | some vp1 =>
    obtain ⟨v1, p1⟩ := vp1
    rw [h1] at h
    simp only [Option.some.injEq] at h
    cases h2 : readU32 buf p1 with
    | none => rw [h2] at h; exact absurd h (by simp)
    | some vp2 =>
      obtain ⟨v2, p2⟩ := vp2
      rw [h2] at h
      simp only [Option.some.injEq] at h
      cases h3 : readU32 buf p2 with
      | none => rw [h3] at h; exact absurd h (by simp)
      | some vp3 =>
        obtain ⟨v3, p3⟩ := vp3
        rw [h3] at h
        simp only [Option.some.injEq, Prod.mk.injEq] at h
        obtain ⟨he, hp⟩ := h
        subst he
        have e1 := readUInt_pos_eq h1
        have e2 := readUInt_pos_eq h2
        have e3 := readUInt_pos_eq h3
        exact ⟨rfl, by omega⟩

theorem relocLoop_addend (buf : Bytes) (shOffset entsize size : Nat) (b : Bool) :
    ∀ (fuel off : Nat) (entries : List RelocationEntry),
      relocLoop buf shOffset entsize size b fuel off = some entries →
      ∀ e ∈ entries, e.addend.isSome = b := by
  intro fuel
  induction fuel with
  | zero => intro off entries h; simp [relocLoop] at h
  | succ f ih =>
    intro off entries h
    unfold relocLoop at h
    by_cases hoff : off < size
    · rw [if_pos hoff] at h
      cases h1 : RelocationEntry.new buf (shOffset + off) b with
      | none => rw [h1] at h; exact absurd h (by simp)
      | some ep =>
        obtain ⟨e, p'⟩ := ep
        rw [h1] at h
        simp only [Option.some.injEq] at h
        cases h2 : relocLoop buf shOffset entsize size b f (off + entsize) with
        | none => rw [h2] at h; exact absurd h (by simp)
        | some rest =>
          rw [h2] at h
          simp only [Option.some.injEq] at h
          subst h
          intro x hx
          rcases List.mem_cons.mp hx with hx | hx
          · subst hx
            cases b with
            | true =>
              obtain ⟨a, ha⟩ := (RelocationEntry_new_true h1).1
              simp [ha]
            | false => simp [(RelocationEntry_new_false h1).1]
          · exact ih (off + entsize) rest h2 x hx
    · rw [if_neg hoff] at h
      simp only [Option.some.injEq] at h
      subst h
      intro x hx
      exact absurd hx (List.not_mem_nil x)

/-- Claim C7: a with-addend relocation record always decodes with
Some(addend) and consumes 24 bytes (8 + 4 + 4 + 8); a without-addend
record always decodes with None and consumes 16 bytes; lifted to whole
sections, every entry of a Rela-typed section carries an addend and every
entry of a Rel-typed section carries none. -/
theorem claim_C7 :
    (∀ (buf : Bytes) (pos : Nat) (e : RelocationEntry) (p' : Nat),
       RelocationEntry.new buf pos true = some (e, p') →
       (∃ a, e.addend = some a) ∧ p' = pos + 24) ∧
    (∀ (buf : Bytes) (pos : Nat) (e : RelocationEntry) (p' : Nat),
       RelocationEntry.new buf pos false = some (e, p') →
       e.addend = none ∧ p' = pos + 16) ∧
    (∀ (header : SectionHeader) (name : Bytes) (symtab : SymbolTable)
       (buf : Bytes) (sec : RelocationSection),
       header.sh_type = SectionHeaderType.Rela →
       RelocationSection.new header name symtab buf = some sec →
       ∀ e ∈ sec.entries, ∃ a, e.addend = some a) ∧
    (∀ (header : SectionHeader) (name : Bytes) (symtab : SymbolTable)
       (buf : Bytes) (sec : RelocationSection),
       header.sh_type = SectionHeaderType.Rel →
       RelocationSection.new header name symtab buf = some sec →
       ∀ e ∈ sec.entries, e.addend = none) := by
  refine ⟨?_, ?_, ?_, ?_⟩
  · intro buf pos e p' h
    exact RelocationEntry_new_true h
  · intro buf pos e p' h
    exact RelocationEntry_new_false h
  · intro header name symtab buf sec hty h
    unfold RelocationSection.new at h
    rw [hty] at h
    cases hl : relocLoop buf header.sh_offset header.sh_entsize
        header.sh_size (decide (SectionHeaderType.Rela = SectionHeaderType.Rela))
        (header.sh_size + 1) 0 with
    | none => rw [hl] at h; exact absurd h (by simp)
    | some entries =>
      rw [hl] at h
      simp only [Option.some.injEq] at h
      subst h
      intro e he
      have := relocLoop_addend buf header.sh_offset header.sh_entsize
        header.sh_size _ _ _ _ hl e he
      simp only [decide_eq_true_eq] at this
      exact Option.isSome_iff_exists.mp (by simp [this])
  · intro header name symtab buf sec hty h
    unfold RelocationSection.new at h
    rw [hty] at h
    cases hl : relocLoop buf header.sh_offset header.sh_entsize
        header.sh_size (decide (SectionHeaderType.Rel = SectionHeaderType.Rela))
        (header.sh_size + 1) 0 with
    | none => rw [hl] at h; exact absurd h (by simp)
    | some entries =>
      rw [hl] at h
      simp only [Option.some.injEq] at h
      subst h
      intro e he
      have := relocLoop_addend buf header.sh_offset header.sh_entsize
        header.sh_size _ _ _ _ hl e he
      exact Option.not_isSome_iff_eq_none.mp (by simp_all)

/-- Witness for claim C7: both record kinds over an all-zero buffer, at
record and at section level. -/
theorem claim_C7_witness :
    ((∃ a, (some (0 : Int)) = some a) ∧ 24 = 0 + 24) ∧
    ((none : Option Int) = none ∧ 16 = 0 + 16) ∧
    (∀ e ∈ [({ offset := 0, reltype := 0, symidx := 0, addend := some 0 } :
        RelocationEntry)], ∃ a, e.addend = some a) ∧
    (∀ e ∈ [({ offset := 0, reltype := 0, symidx := 0, addend := none } :
        RelocationEntry)], e.addend = none) := by
  obtain ⟨h1, h2, h3, h4⟩ := claim_C7
  refine ⟨?_, ?_, ?_, ?_⟩
  · have := h1 (List.replicate 24 0) 0
      ⟨0, 0, 0, some 0⟩ 24 (by decide)
    exact ⟨this.1, this.2⟩
  · have := h2 (List.replicate 16 0) 0
      ⟨0, 0, 0, none⟩ 16 (by decide)
    exact ⟨this.1, this.2⟩
  · exact h3 ⟨0, SectionHeaderType.Rela, 0, 0, 0, 24, 0, 0, 0, 24⟩ []
      ⟨[], StringTable.empty, [], 0⟩ (List.replicate 24 0)
      ⟨[⟨0, 0, 0, some 0⟩], ⟨[], StringTable.empty, [], 0⟩, [],
       SectionHeaderType.Rela⟩ rfl (by decide)
  · exact h4 ⟨0, SectionHeaderType.Rel, 0, 0, 0, 16, 0, 0, 0, 16⟩ []
      ⟨[], StringTable.empty, [], 0⟩ (List.replicate 16 0)
      ⟨[⟨0, 0, 0, none⟩], ⟨[], StringTable.empty, [], 0⟩, [],
       SectionHeaderType.Rel⟩ rfl (by decide)

/- ===== Claim C10 ===== -/

theorem readSectionHeaderList_length (buf : Bytes) :
    ∀ (count pos : Nat) (l : List SectionHeader),
      readSectionHeaderList buf pos count = some l → l.length = count := by
  intro count
  induction count with
  | zero =>
    intro pos l h
    unfold readSectionHeaderList at h
    simp only [Option.some.injEq] at h
    subst h
    rfl
  | succ c ih =>
    intro pos l h
    unfold readSectionHeaderList at h
    cases h1 : SectionHeader.new buf pos with
    | none => rw [h1] at h; exact absurd h (by simp)
    | some hp =>
      obtain ⟨hd, pos'⟩ := hp
      rw [h1] at h
      simp only [Option.some.injEq] at h
      cases h2 : readSectionHeaderList buf pos' c with
      | none => rw [h2] at h; exact absurd h (by simp)
      | some rest =>
        rw [h2] at h
        simp only [Option.some.injEq] at h
        subst h
        simp [ih pos' rest h2]

/-- Claim C10: building the section-header table requires e_shstrndx to be
below e_shnum whenever e_shnum is positive; under that precondition the
string table is loaded from the header at index e_shstrndx, an e_shnum of
zero gives the empty string table, and violating the precondition makes
the unguarded vector index go out of bounds. -/
theorem claim_C10 :
    (∀ (fh : ElfFileHeader) (buf : Bytes) (hdrs : List SectionHeader),
       readSectionHeaderList buf fh.e_shoff fh.e_shnum = some hdrs →
       0 < fh.e_shnum → fh.e_shstrndx < fh.e_shnum →
       ∃ h, hdrs.get? fh.e_shstrndx = some h ∧
         SectionHeaders.new fh buf = .ok ⟨hdrs, StringTable.new h buf⟩) ∧
    (∀ (fh : ElfFileHeader) (buf : Bytes), fh.e_shnum = 0 →
       SectionHeaders.new fh buf = .ok ⟨[], StringTable.empty⟩) ∧
    (∀ (fh : ElfFileHeader) (buf : Bytes) (hdrs : List SectionHeader),
       readSectionHeaderList buf fh.e_shoff fh.e_shnum = some hdrs →
       0 < fh.e_shnum → fh.e_shnum ≤ fh.e_shstrndx →
       SectionHeaders.new fh buf = .error .indexOutOfBounds) := by
  refine ⟨?_, ?_, ?_⟩
  · intro fh buf hdrs hread hpos hlt
    have hlen := readSectionHeaderList_length buf fh.e_shnum fh.e_shoff hdrs hread
    cases hg : hdrs.get? fh.e_shstrndx with
    | none =>
      have := List.get?_eq_none.mp hg
      omega
    | some h =>
      refine ⟨h, rfl, ?_⟩
      unfold SectionHeaders.new
      rw [hread]
      simp only [hpos, if_true, hg]
  · intro fh buf h0
    unfold SectionHeaders.new
    rw [h0]
    simp [readSectionHeaderList]
  · intro fh buf hdrs hread hpos hge
    have hlen := readSectionHeaderList_length buf fh.e_shnum fh.e_shoff hdrs hread
    have hg : hdrs.get? fh.e_shstrndx = none := List.get?_eq_none.mpr (by omega)
    unfold SectionHeaders.new
    rw [hread]
    simp only [hpos, if_true, hg]

/-- Witness for claim C10: a one-section file over a 64-byte zero buffer,
with the in-range and the out-of-range string-table index. -/
theorem claim_C10_witness :
    (∃ h, [(⟨0, SectionHeaderType.Null, 0, 0, 0, 0, 0, 0, 0, 0⟩ :
          SectionHeader)].get? 0 = some h ∧
       SectionHeaders.new
         ⟨[], FileClass.None, Encoding.None, 0, OsAbi.UnixVSystem, 0, [],
          ObjectType.NoFileType, 0, Version.Unspecified, 0, 0, 0, 0, 0, 0,
          0, 0, 1, 0⟩ (List.replicate 64 0) =
         .ok ⟨[⟨0, SectionHeaderType.Null, 0, 0, 0, 0, 0, 0, 0, 0⟩],
              StringTable.new h (List.replicate 64 0)⟩) ∧
    SectionHeaders.new
      ⟨[], FileClass.None, Encoding.None, 0, OsAbi.UnixVSystem, 0, [],
       ObjectType.NoFileType, 0, Version.Unspecified, 0, 0, 0, 0, 0, 0,
       0, 0, 1, 7⟩ (List.replicate 64 0) = .error .indexOutOfBounds :=
  ⟨claim_C10.1
     ⟨[], FileClass.None, Encoding.None, 0, OsAbi.UnixVSystem, 0, [],
      ObjectType.NoFileType, 0, Version.Unspecified, 0, 0, 0, 0, 0, 0,
      0, 0, 1, 0⟩ (List.replicate 64 0)
     [⟨0, SectionHeaderType.Null, 0, 0, 0, 0, 0, 0, 0, 0⟩]
     (by decide) (by decide) (by decide),
   claim_C10.2.2
     ⟨[], FileClass.None, Encoding.None, 0, OsAbi.UnixVSystem, 0, [],
      ObjectType.NoFileType, 0, Version.Unspecified, 0, 0, 0, 0, 0, 0,
      0, 0, 1, 7⟩ (List.replicate 64 0)
     [⟨0, SectionHeaderType.Null, 0, 0, 0, 0, 0, 0, 0, 0⟩]
     (by decide) (by decide) (by decide)⟩

/- ===== Claim C9 ===== -/

/-- Claim C9: whenever the fixed-width fields, the name bytes and the
descriptor bytes of a note record are all read successfully but the name
bytes are not valid UTF-8, Note decoding fails with the propagated UTF-8
error carrying the name bytes: a hard failure mode beyond magic mismatch
and reading off the end of the buffer. -/
theorem claim_C9 (addrsize align : Nat) (buf : Bytes) (pos : Nat)
    (nsz dsz ty : Nat) (nm : Bytes) (p1 p2 p3 p4 : Nat)
    (h1 : readU32 buf pos = some (nsz, p1))
    (h2 : readU32 buf p1 = some (dsz, p2))
    (h3 : readU32 buf p2 = some (ty, p3))
    (h4 : readBytes buf p3 nsz = some (nm, p4))
    (h5 : nsz + ELF_NOTE_SIZE ≤ note_desc_offset nsz align)
    (h6 : p4 + (note_desc_offset nsz align - (nsz + ELF_NOTE_SIZE)) + dsz ≤
      buf.length)
    (h7 : validUtf8 nm = false) :
    Note.new addrsize align buf pos = .error (.utf8Fail nm) := by
  unfold Note.new
  rw [h1]
  simp only [Option.some.injEq]
  rw [h2]
  simp only [Option.some.injEq]
  rw [h3]
  simp only [Option.some.injEq]
  rw [h4]
  simp only [Option.some.injEq]
  rw [if_neg (by omega)]
  rw [readBytes, if_pos h6]
  simp only [h7, Bool.false_eq_true, if_false]

/-- Witness for claim C9: a note whose single name byte 0xFF is not valid
UTF-8 decodes to the UTF-8 error. -/
theorem claim_C9_witness :
    Note.new 8 0 [1, 0, 0, 0, 0, 0, 0, 0, 0, 0, 0, 0, 255, 0, 0, 0] 0 =
      .error (.utf8Fail [255]) :=
  claim_C9 8 0 [1, 0, 0, 0, 0, 0, 0, 0, 0, 0, 0, 0, 255, 0, 0, 0] 0
    1 0 0 [255] 4 8 12 13
    (by decide) (by decide) (by decide) (by decide) (by decide) (by decide)
    (by decide)

/- ===== Claim C5 ===== -/

theorem noteLoop_no_zero (addrsize align offset size : Nat) (buf : Bytes) :
    ∀ (fuel pos : Nat) (l : List Note),
      noteLoop addrsize align offset size buf fuel pos = .ok l →
      ∀ nt ∈ l, nt.name_size ≠ 0 := by
  intro fuel
  induction fuel with
  | zero => intro pos l h; exact absurd h (by simp [noteLoop])
  | succ f ih =>
    intro pos l h
    unfold noteLoop at h
    by_cases hpos : pos < size
    · rw [if_pos hpos] at h
      cases hn : Note.new addrsize align buf (offset + pos) with
      | error e => rw [hn] at h; exact absurd h (by simp)
      | ok note =>
        rw [hn] at h
        by_cases hz : note.name_size = 0
        · simp only [hz, if_true, eq_self_iff_true, Except.ok.injEq] at h
          subst h
          intro nt hnt
          exact absurd hnt (List.not_mem_nil nt)
        · simp only [if_neg hz] at h
          cases hr : noteLoop addrsize align offset size buf f
              (pos + note_next_offset note.name_size note.desc_size align) with
          | error e => rw [hr] at h; exact absurd h (by simp)
          | ok rest =>
            rw [hr] at h
            simp only [Except.ok.injEq] at h
            subst h
            intro nt hnt
            rcases List.mem_cons.mp hnt with hnt | hnt
            · subst hnt; exact hz
            · exact ih _ rest hr nt hnt
    · rw [if_neg hpos] at h
      simp only [Except.ok.injEq] at h
      subst h
      intro nt hnt
      exact absurd hnt (List.not_mem_nil nt)

def noteC5buf : Bytes :=
  [4, 0, 0, 0, 2, 0, 0, 0, 153, 0, 0, 0,
   71, 78, 85, 0, 170, 187, 0, 0,
   6, 0, 0, 0, 1, 0, 0, 0, 1, 0, 0, 0,
   72, 69, 76, 76, 79, 0, 9, 9,
   204, 7, 7, 7,
   0, 0, 0, 0, 0, 0, 0, 0, 0, 0, 0, 0,
   1, 2, 3, 4]

/-- Claim C5: the alignment used for note padding is at least 4 whatever
the declared value; a record with zero name length terminates the region
and is never emitted; and on a region holding a GNU note (name length 4,
descriptor length 2), a second note placed at the alignment-rounded
record size (declared alignment 0, so floor 4), and then a zero-name
record followed by further bytes, decoding yields exactly the two notes,
both when the zero-name record stops it early (size 80) and when the
declared size is reached exactly at the second record end (size 44). -/
theorem claim_C5 :
    (∀ a, 4 ≤ effectiveAlign a) ∧
    (∀ (addrsize offset size align : Nat) (buf : Bytes) (name : Option Bytes)
       (ns : NoteSection),
       NoteSection.new_from_file addrsize offset size align name buf = .ok ns →
       ∀ nt ∈ ns.data, nt.name_size ≠ 0) ∧
    NoteSection.new_from_file 8 0 80 0 none noteC5buf =
      .ok ⟨[⟨4, 2, NoteType.Unknown 153, [71, 78, 85, 0],
             NoteDesc.Unknown [170, 187]⟩,
            ⟨6, 1, NoteType.Version, [72, 69, 76, 76, 79, 0],
             NoteDesc.Unknown [204]⟩], []⟩ ∧
    NoteSection.new_from_file 8 0 44 0 none noteC5buf =
      .ok ⟨[⟨4, 2, NoteType.Unknown 153, [71, 78, 85, 0],
             NoteDesc.Unknown [170, 187]⟩,
            ⟨6, 1, NoteType.Version, [72, 69, 76, 76, 79, 0],
             NoteDesc.Unknown [204]⟩], []⟩ := by
  refine ⟨?_, ?_, by decide, by decide⟩
  · intro a
    unfold effectiveAlign
    split <;> omega
  · intro addrsize offset size align buf name ns h
    unfold NoteSection.new_from_file at h
    cases hl : noteLoop addrsize align offset size buf (size + 1) 0 with
    | error e => rw [hl] at h; exact absurd h (by simp)
    | ok data =>
      rw [hl] at h
      simp only [Except.ok.injEq] at h
      subst h
      exact noteLoop_no_zero addrsize align offset size buf (size + 1) 0 data hl

/-- Witness for claim C5: the alignment floor at declared alignment 0 and
the no-zero-name property applied to the concrete two-note region. -/
theorem claim_C5_witness :
    4 ≤ effectiveAlign 0 ∧
    ∀ nt ∈ [(⟨4, 2, NoteType.Unknown 153, [71, 78, 85, 0],
              NoteDesc.Unknown [170, 187]⟩ : Note),
            ⟨6, 1, NoteType.Version, [72, 69, 76, 76, 79, 0],
             NoteDesc.Unknown [204]⟩], nt.name_size ≠ 0 :=
  ⟨claim_C5.1 0,
   claim_C5.2.1 8 0 80 0 noteC5buf none
     ⟨[⟨4, 2, NoteType.Unknown 153, [71, 78, 85, 0],
        NoteDesc.Unknown [170, 187]⟩,
       ⟨6, 1, NoteType.Version, [72, 69, 76, 76, 79, 0],
        NoteDesc.Unknown [204]⟩], []⟩ claim_C5.2.2.1⟩

/- ===== Claim C2 ===== -/

def exC2Buf : Bytes :=
  [5, 0, 0, 0, 0, 0, 0, 0, 100, 0, 0, 0, 0, 0, 0, 0,
   10, 0, 0, 0, 0, 0, 0, 0, 3, 0, 0, 0, 0, 0, 0, 0,
   0, 0, 0, 0, 0, 0, 0, 0, 0, 0, 0, 0, 0, 0, 0, 0,
   0, 0, 0, 0, 0, 0, 0, 0, 0, 0, 0, 0,
   97, 98, 0]

def exC2DynHdr : SectionHeader :=
  ⟨0, SectionHeaderType.Dynamic, 0, 0, 0, 48, 0, 0, 0, 16⟩

def exC2StrA : SectionHeader :=
  ⟨0, SectionHeaderType.Strtab, 0, 999, 0, 7, 0, 0, 0, 0⟩

def exC2StrB : SectionHeader :=
  ⟨0, SectionHeaderType.Strtab, 0, 100, 60, 3, 0, 0, 0, 0⟩

def exC2Headers : SectionHeaders :=
  ⟨[exC2DynHdr, exC2StrA, exC2StrB], StringTable.empty⟩

def exC2Entries : List DynamicEntry :=
  [⟨DynamicEntryTag.Strtab, 100⟩, ⟨DynamicEntryTag.StrtabSize, 3⟩,
   ⟨DynamicEntryTag.Null, 0⟩]

/-- Counterexample to claim C2 as stated: in the historical decoder of
src/main.rs (the only one that matches address and size at all), the
section table below carries exactly one string-typed header whose address
and size equal the Strtab and StrtabSize values 100 and 3 (the header at
index 2, whose table is the nonempty [97, 98, 0]), yet the decoder
returns the empty string table, because its scan breaks after inspecting
the first string-typed header (index 1, address 999), which does not
match. The modular decoder of src/dynamic.rs does not scan at all: it
resolves the table through the sh_link index of the dynamic header. -/
theorem claim_C2_counterexample :
    MainDynamicSection.new exC2Headers exC2Buf =
      .ok ⟨exC2Entries, StringTable.empty⟩ ∧
    readMainDynamicEntries exC2Buf 0 = some (exC2Entries, 100, 3) ∧
    exC2Headers.headers.get? 2 = some exC2StrB ∧
    exC2StrB.sh_type = SectionHeaderType.Strtab ∧
    exC2StrB.sh_addr = 100 ∧ exC2StrB.sh_size = 3 ∧
    StringTable.new exC2StrB exC2Buf = ⟨[97, 98, 0]⟩ ∧
    exC2Headers.headers.get? 1 = some exC2StrA ∧
    exC2StrA.sh_type = SectionHeaderType.Strtab ∧
    exC2StrA.sh_addr ≠ 100 ∧
    StringTable.empty ≠ StringTable.new exC2StrB exC2Buf := by decide

/-- Claim C2, amended: the modular decoder (src/dynamic.rs) locates the
dynamic string table from the section header at index sh_link of the
dynamic section header, with no address or size matching; the historical
decoder (src/main.rs) inspects only the first string-typed section
header, loads its table when its address and size equal the values of the
Strtab and StrtabSize entries, and otherwise leaves the string table
empty, even when a later string-typed header matches. -/
theorem claim_C2_amended :
    (∀ (headers : SectionHeaders) (buf : Bytes) (hdr : SectionHeader)
       (ds : DynamicSection),
       headers.get SectionHeaderType.Dynamic = some hdr →
       DynamicSection.new headers buf = .ok (some ds) →
       ∃ sh, headers.headers.get? hdr.sh_link = some sh ∧
         ds.strtab = StringTable.new sh buf) ∧
    (∀ (headers : SectionHeaders) (buf : Bytes) (hdr : SectionHeader)
       (entries : List DynamicEntry) (a s : Nat) (ds : DynamicSection),
       headers.headers.find?
         (fun h => decide (h.sh_type = SectionHeaderType.Dynamic)) = some hdr →
       readMainDynamicEntries buf hdr.sh_offset = some (entries, a, s) →
       MainDynamicSection.new headers buf = .ok ds →
       (headers.headers.find?
           (fun h => decide (h.sh_type = SectionHeaderType.Strtab)) = none →
         ds.strtab = StringTable.empty) ∧
       (∀ h, headers.headers.find?
           (fun h => decide (h.sh_type = SectionHeaderType.Strtab)) = some h →
         (h.sh_addr = a ∧ h.sh_size = s →
           ds.strtab = StringTable.new h buf) ∧
         (¬(h.sh_addr = a ∧ h.sh_size = s) →
           ds.strtab = StringTable.empty))) := by
  constructor
  · intro headers buf hdr ds h1 h2
    unfold DynamicSection.new at h2
    rw [h1] at h2
    simp only [Option.some.injEq] at h2
    cases hread : readDynamicEntries buf hdr.sh_offset with
    | none => rw [hread] at h2; exact absurd h2 (by simp)
    | some entries =>
      rw [hread] at h2
      simp only [Option.some.injEq] at h2
      cases hg : headers.headers.get? hdr.sh_link with
      | none => rw [hg] at h2; exact absurd h2 (by simp)
      | some sh =>
        rw [hg] at h2
        simp only [Except.ok.injEq, Option.some.injEq] at h2
        exact ⟨sh, rfl, by rw [← h2]⟩
  · intro headers buf hdr entries a s ds h1 h2 h3
    unfold MainDynamicSection.new at h3
    rw [h1] at h3
    simp only [Option.some.injEq] at h3
    rw [h2] at h3
    simp only [Option.some.injEq] at h3
    constructor
    · intro hnone
      rw [hnone] at h3
      simp only [Except.ok.injEq] at h3
      rw [← h3]
    · intro h hfind
      rw [hfind] at h3
      simp only [Option.some.injEq] at h3
      constructor
      · intro hc
        rw [if_pos hc] at h3
        simp only [Except.ok.injEq] at h3
        rw [← h3]
      · intro hnc
        rw [if_neg hnc] at h3
        simp only [Except.ok.injEq] at h3
        rw [← h3]

/-- Witness for claim C2: both amended parts applied to the concrete
section table of the counterexample input. -/
theorem claim_C2_witness :
    (∃ sh, exC2Headers.headers.get? exC2DynHdr.sh_link = some sh ∧
       (⟨exC2Entries, StringTable.new exC2DynHdr exC2Buf⟩ :
         DynamicSection).strtab = StringTable.new sh exC2Buf) ∧
    (⟨exC2Entries, StringTable.empty⟩ : DynamicSection).strtab =
      StringTable.empty :=
  ⟨claim_C2_amended.1 exC2Headers exC2Buf exC2DynHdr
     ⟨exC2Entries, StringTable.new exC2DynHdr exC2Buf⟩ (by decide) (by decide),
   ((claim_C2_amended.2 exC2Headers exC2Buf exC2DynHdr exC2Entries 100 3
       ⟨exC2Entries, StringTable.empty⟩ (by decide) (by decide)
       (by decide)).2 exC2StrA (by decide)).2 (by decide)⟩

end Elf
